import Mathlib

/-!
Verification development for the `synopsys-usb-otg` USB device-controller
driver (`src/bus.rs`).  The driver's data model and operations are embedded
shallowly: the endpoint allocator, the FIFO layout computation of
`configure_all`, the bus-level `write`/`read`/stall dispatch, and the
interrupt-status-to-event translator `poll` are translated into pure Lean
functions over an explicit state.  Hardware registers become fields of a
state record; busy-waits on hardware acknowledgment bits are modelled as
completing (the flushed FIFO becomes empty).  Collaborating modules that are
not part of `bus.rs` (the endpoint memory allocator, the per-endpoint buffer
`fill_from_fifo`, and the stall register helpers of the `endpoint` module)
are modelled from the specification; their definitions carry a
`Modelled from the spec:` note.
-/

namespace SynopsysUsbOtg

/-- Direction of a USB endpoint, mirroring `usb_device::UsbDirection`. -/
inductive UsbDirection where
  | dirIn
  | dirOut
deriving DecidableEq, Repr

/-- Error kinds surfaced by the driver, mirroring `usb_device::UsbError`
(only the kinds the driver produces are modelled). -/
inductive UsbError where
  | invalidEndpoint
  | endpointOverflow
  | endpointMemoryOverflow
deriving DecidableEq, Repr

/-- A direction-tagged endpoint number, mirroring `EndpointAddress`. -/
structure EndpointAddress where
  index : Nat
  direction : UsbDirection
deriving DecidableEq, Repr

/-- Mirrors `EndpointAddress::from_parts`. -/
def EndpointAddress.from_parts (index : Nat) (direction : UsbDirection) : EndpointAddress :=
  ⟨index, direction⟩

/-- Mirrors `EndpointAddress::is_in`. -/
def EndpointAddress.is_in (a : EndpointAddress) : Bool :=
  a.direction = UsbDirection.dirIn

/-- Mirrors `EndpointAddress::is_out`. -/
def EndpointAddress.is_out (a : EndpointAddress) : Bool :=
  a.direction = UsbDirection.dirOut

/-- Endpoint transfer types, mirroring `usb_device::endpoint::EndpointType`. -/
inductive EndpointType where
  | control
  | isochronous
  | bulk
  | interrupt
deriving DecidableEq, Repr

/-- Mirrors `crate::transition::EndpointConfig`. -/
structure EndpointConfig where
  ep_type : EndpointType
  max_packet_size : Nat
  interval : Nat
  number : Option Nat
  pair_of : Option Nat
deriving DecidableEq, Repr

/-- Mirrors `crate::transition::EndpointDescriptor`. -/
structure EndpointDescriptor where
  address : EndpointAddress
  ep_type : EndpointType
  max_packet_size : Nat
  interval : Nat
deriving DecidableEq, Repr

/-- Tri-state software receive buffer state, mirroring
`endpoint_memory::EndpointBufferState`. -/
inductive EndpointBufferState where
  | empty
  | dataOut
  | dataSetup
deriving DecidableEq, Repr

/-- Model of `crate::endpoint::EndpointIn`: the descriptor plus the
configured/deconfigured hardware state of the endpoint. -/
structure EndpointIn where
  descr : EndpointDescriptor
  configured : Bool
deriving DecidableEq, Repr

/-- Mirrors `EndpointIn::address`. -/
def EndpointIn.address (ep : EndpointIn) : EndpointAddress := ep.descr.address

/-- Model of `crate::endpoint::EndpointOut`: the descriptor, the software
receive buffer's tri-state, and the configured/deconfigured state. -/
structure EndpointOut where
  descr : EndpointDescriptor
  bufState : EndpointBufferState
  configured : Bool
deriving DecidableEq, Repr

/-- Mirrors `EndpointOut::address`. -/
def EndpointOut.address (ep : EndpointOut) : EndpointAddress := ep.descr.address

/-- Mirrors `EndpointOut::buffer_state`. -/
def EndpointOut.buffer_state (ep : EndpointOut) : EndpointBufferState := ep.bufState

/-- Modelled from the spec: the Endpoint Memory Allocator
(`endpoint_memory::EndpointMemoryAllocator`, not under `src/`).  Per the
spec it "plans transmit FIFO sizes per endpoint number and allocates/tracks
receive-packet buffer regions in the controller's shared packet memory;
reports word-granular sizes".  `totalWords` is the capacity of the
`ep_memory` slice handed to `UsbBus::new`, `rxWords` the words already
handed out as receive buffers, `txFifoWords` the planned transmit FIFO size
in words for each of the four endpoint numbers. -/
structure EndpointMemoryAllocator where
  totalWords : Nat
  rxWords : Nat
  txFifoWords : List Nat
deriving DecidableEq, Repr

/-- Byte count rounded up to 32-bit words. -/
def wordCount (bytes : Nat) : Nat := (bytes + 3) / 4

/-- Modelled from the spec: a fresh memory allocator over `totalWords` words
of endpoint memory, with no receive buffers allocated and no transmit FIFOs
planned. -/
def EndpointMemoryAllocator.new (totalWords : Nat) : EndpointMemoryAllocator :=
  ⟨totalWords, 0, [0, 0, 0, 0]⟩

/-- Modelled from the spec: `allocate_rx_buffer` carves a receive buffer of
`size` bytes (word-granular) out of the shared endpoint memory; when the
memory is exhausted the failure "propagates as its own error kind". -/
def EndpointMemoryAllocator.allocate_rx_buffer (m : EndpointMemoryAllocator) (size : Nat) :
    Except UsbError Unit × EndpointMemoryAllocator :=
  if m.rxWords + wordCount size ≤ m.totalWords then
    (Except.ok (), { m with rxWords := m.rxWords + wordCount size })
  else
    (Except.error UsbError.endpointMemoryOverflow, m)

/-- Modelled from the spec: `allocate_tx_buffer` plans a transmit FIFO of
`size` bytes for endpoint number `ep` ("for IN, allocates a transmit FIFO of
`max_packet_size` bytes addressed by endpoint number"); the spec states no
failure condition for the planning step. -/
def EndpointMemoryAllocator.allocate_tx_buffer (m : EndpointMemoryAllocator) (ep : Nat)
    (size : Nat) : EndpointMemoryAllocator :=
  { m with txFifoWords := m.txFifoWords.set ep (wordCount size) }

/-- Modelled from the spec: total words of allocated receive buffers. -/
def EndpointMemoryAllocator.total_rx_buffer_size_words (m : EndpointMemoryAllocator) : Nat :=
  m.rxWords

/-- Modelled from the spec: the planned transmit FIFO size in words for a
given endpoint number (zero when nothing was planned). -/
def EndpointMemoryAllocator.tx_fifo_size_words (m : EndpointMemoryAllocator) (i : Nat) : Nat :=
  m.txFifoWords.getD i 0

/-- Mirrors `EndpointAllocator` in `bus.rs`: two occupancy bitmaps, two
four-slot arrays of endpoint objects, and the memory allocator. -/
structure EndpointAllocator where
  bitmap_in : Nat
  bitmap_out : Nat
  endpoints_in : List (Option EndpointIn)
  endpoints_out : List (Option EndpointOut)
  memory_allocator : EndpointMemoryAllocator
deriving DecidableEq, Repr

/-- Mirrors `EndpointAllocator::ENDPOINT_COUNT`. -/
def ENDPOINT_COUNT : Nat := 4

/-- Mirrors `EndpointAllocator::new` (with `totalWords` standing for the
length of the `ep_memory` slice). -/
def EndpointAllocator.new (totalWords : Nat) : EndpointAllocator :=
  ⟨0, 0, [none, none, none, none], [none, none, none, none],
    EndpointMemoryAllocator.new totalWords⟩

/-- The `for number in 1..ENDPOINT_COUNT` scan of `alloc_number`: walk the
candidate numbers in order, claim the first whose bitmap bit is clear.
Returns the updated bitmap together with the claimed number. -/
def alloc_number_scan (bitmap : Nat) : List Nat → Except UsbError (Nat × Nat)
  | [] => Except.error UsbError.endpointOverflow
  | n :: rest =>
      if bitmap &&& (1 <<< n) = 0 then Except.ok (bitmap ||| (1 <<< n), n)
      else alloc_number_scan bitmap rest

/-- Mirrors `EndpointAllocator::alloc_number`.  The `&mut u8` bitmap is
threaded explicitly: the result carries the updated bitmap. -/
def alloc_number (bitmap : Nat) (number : Option Nat) : Except UsbError (Nat × Nat) :=
  match number with
  | some n =>
      if ENDPOINT_COUNT ≤ n then Except.error UsbError.invalidEndpoint
      else if bitmap &&& (1 <<< n) = 0 then Except.ok (bitmap ||| (1 <<< n), n)
      else Except.error UsbError.invalidEndpoint
  | none => alloc_number_scan bitmap ((List.range ENDPOINT_COUNT).drop 1)

/-- Mirrors `EndpointAllocator::alloc`. -/
def alloc (bitmap : Nat) (config : EndpointConfig) (direction : UsbDirection) :
    Except UsbError (Nat × EndpointDescriptor) :=
  match alloc_number bitmap config.number with
  | Except.error e => Except.error e
  | Except.ok (bm, number) =>
      Except.ok (bm,
        { address := EndpointAddress.from_parts number direction
          ep_type := config.ep_type
          max_packet_size := config.max_packet_size
          interval := config.interval })

/-- Mirrors `EndpointAllocator::alloc_in`.  State is threaded explicitly;
note that a bitmap bit claimed by `alloc` stays claimed even when a later
step fails (the Rust code mutates `self.bitmap_in` in place). -/
def EndpointAllocator.alloc_in (a : EndpointAllocator) (config : EndpointConfig) :
    Except UsbError EndpointIn × EndpointAllocator :=
  match alloc a.bitmap_in config UsbDirection.dirIn with
  | Except.error e => (Except.error e, a)
  | Except.ok (bm, descr) =>
      let a := { a with bitmap_in := bm }
      let mem := a.memory_allocator.allocate_tx_buffer descr.address.index descr.max_packet_size
      (Except.ok ⟨descr, false⟩, { a with memory_allocator := mem })

/-- Mirrors `EndpointAllocator::alloc_out`.  On a receive-buffer allocation
failure the error propagates while the bitmap bit remains set. -/
def EndpointAllocator.alloc_out (a : EndpointAllocator) (config : EndpointConfig) :
    Except UsbError EndpointOut × EndpointAllocator :=
  match alloc a.bitmap_out config UsbDirection.dirOut with
  | Except.error e => (Except.error e, a)
  | Except.ok (bm, descr) =>
      let a := { a with bitmap_out := bm }
      match a.memory_allocator.allocate_rx_buffer descr.max_packet_size with
      | (Except.error e, m) => (Except.error e, { a with memory_allocator := m })
      | (Except.ok _, m) =>
          (Except.ok ⟨descr, EndpointBufferState.empty, false⟩, { a with memory_allocator := m })

/-- Mirrors `EndpointAllocator::alloc_ep`. -/
def EndpointAllocator.alloc_ep (a : EndpointAllocator) (ep_dir : UsbDirection)
    (ep_addr : Option EndpointAddress) (ep_type : EndpointType)
    (max_packet_size : Nat) (interval : Nat) :
    Except UsbError EndpointAddress × EndpointAllocator :=
  let number := ep_addr.map (·.index)
  let config : EndpointConfig :=
    { ep_type := ep_type
      max_packet_size := max_packet_size
      interval := interval
      number := number
      pair_of := none }
  match ep_dir with
  | UsbDirection.dirOut =>
      match a.alloc_out config with
      | (Except.error e, a) => (Except.error e, a)
      | (Except.ok ep, a) =>
          let address := ep.address
          (Except.ok address,
            { a with endpoints_out := a.endpoints_out.set address.index (some ep) })
  | UsbDirection.dirIn =>
      match a.alloc_in config with
      | (Except.error e, a) => (Except.error e, a)
      | (Except.ok ep, a) =>
          let address := ep.address
          (Except.ok address,
            { a with endpoints_in := a.endpoints_in.set address.index (some ep) })

/-- The occupancy bitmap of a direction. -/
def EndpointAllocator.bitmapFor (a : EndpointAllocator) : UsbDirection → Nat
  | UsbDirection.dirIn => a.bitmap_in
  | UsbDirection.dirOut => a.bitmap_out

/-! ### FIFO layout computation of `configure_all` -/

/-- Modelled from the spec: the controller's total FIFO depth in words
(`crate::ral::otg_fifo::FIFO_DEPTH_WORDS`, not under `src/`).  The spec
names it only as "the controller's total FIFO depth"; the full-speed core's
320 words stand in for it (no theorem depends on the exact value). -/
def FIFO_DEPTH_WORDS : Nat := 320

/-- The receive FIFO size computed by `configure_all`: the memory
allocator's receive-buffer word total plus the empirically-derived margin of
30 words (both the high-speed and full-speed branches add 30). -/
def rx_fifo_size (m : EndpointMemoryAllocator) : Nat :=
  m.total_rx_buffer_size_words + 30

/-- Running FIFO tops: the start value followed by the accumulated offset
after each listed transmit FIFO, mirroring the repeated
`fifo_top += fifo_size` of `configure_all`. -/
def fifo_tops (start : Nat) : List Nat → List Nat
  | [] => [start]
  | sz :: rest => start :: fifo_tops (start + sz) rest

/-- The word offsets `configure_all` computes: the receive-FIFO top followed
by the running top after each of transmit FIFOs 0..3. -/
def configureAllOffsets (m : EndpointMemoryAllocator) : List Nat :=
  fifo_tops (rx_fifo_size m)
    [m.tx_fifo_size_words 0, m.tx_fifo_size_words 1,
     m.tx_fifo_size_words 2, m.tx_fifo_size_words 3]

/-- The final `fifo_top` value of `configure_all`. -/
def configureAllFinal (m : EndpointMemoryAllocator) : Nat :=
  rx_fifo_size m + m.tx_fifo_size_words 0 + m.tx_fifo_size_words 1 +
    m.tx_fifo_size_words 2 + m.tx_fifo_size_words 3

/-- The FIFO-layout portion of `configure_all`:
`assert!(fifo_top <= FIFO_DEPTH_WORDS)` aborts (modelled as `none`) when the
final offset exceeds the total depth; otherwise the computed offsets are
programmed into the size/address registers. -/
def configure_all_fifo (m : EndpointMemoryAllocator) : Option (List Nat) :=
  if configureAllFinal m ≤ FIFO_DEPTH_WORDS then some (configureAllOffsets m) else none

/-! ### Bus-level `write` / `read` / stall dispatch -/

/-- Mirrors `UsbBus::write`.  The delegated call `ep.write(buf)` lives in
the `endpoint` module (not under `src/`), so its outcome is passed in as
`epResult`; `bus.rs` maps any success to `Ok(buf.len())`, here `bufLen`. -/
def bus_write (a : EndpointAllocator) (ep_addr : EndpointAddress) (bufLen : Nat)
    (epResult : Except UsbError Nat) : Except UsbError Nat :=
  if !ep_addr.is_in || 4 ≤ ep_addr.index then
    Except.error UsbError.invalidEndpoint
  else
    match a.endpoints_in.getD ep_addr.index none with
    | some _ => epResult.map fun _ => bufLen
    | none => Except.error UsbError.invalidEndpoint

/-- Mirrors `UsbBus::read`.  The delegated call `ep.read(buf)` lives in the
`endpoint` module, so its outcome is passed in as `epResult` and returned
unchanged when the dispatch succeeds. -/
def bus_read (a : EndpointAllocator) (ep_addr : EndpointAddress)
    (epResult : Except UsbError Nat) : Except UsbError Nat :=
  if !ep_addr.is_out || 4 ≤ ep_addr.index then
    Except.error UsbError.invalidEndpoint
  else
    match a.endpoints_out.getD ep_addr.index none with
    | some _ => epResult
    | none => Except.error UsbError.invalidEndpoint

/-- Modelled from the spec: the per-direction hardware stall bits driven by
`crate::endpoint::set_stalled` / `is_stalled` (not under `src/`).  Per the
spec, "stall operations delegate to endpoint-address-indexed hardware
control independent of the allocator's slot table". -/
structure StallState where
  stalled_in : Nat
  stalled_out : Nat
deriving DecidableEq, Repr

/-- Write one bit of a bitmap: set it when `b`, clear it otherwise. -/
def writeBit (x : Nat) (n : Nat) (b : Bool) : Nat :=
  if b then x ||| (1 <<< n)
  else if x.testBit n then x ^^^ (1 <<< n) else x

/-- Modelled from the spec: `crate::endpoint::set_stalled` sets or clears
the hardware stall bit selected by the address. -/
def endpoint_set_stalled (st : StallState) (addr : EndpointAddress) (stalled : Bool) :
    StallState :=
  match addr.direction with
  | UsbDirection.dirIn =>
      { st with stalled_in := writeBit st.stalled_in addr.index stalled }
  | UsbDirection.dirOut =>
      { st with stalled_out := writeBit st.stalled_out addr.index stalled }

/-- Modelled from the spec: `crate::endpoint::is_stalled` reads the hardware
stall bit selected by the address. -/
def endpoint_is_stalled (st : StallState) (addr : EndpointAddress) : Bool :=
  match addr.direction with
  | UsbDirection.dirIn => st.stalled_in.testBit addr.index
  | UsbDirection.dirOut => st.stalled_out.testBit addr.index

/-- Mirrors `UsbBus::set_stalled`: indices `>= 4` return early, everything
else delegates to the `endpoint` module's stall control. -/
def bus_set_stalled (st : StallState) (ep_addr : EndpointAddress) (stalled : Bool) :
    StallState :=
  if 4 ≤ ep_addr.index then st else endpoint_set_stalled st ep_addr stalled

/-- Mirrors `UsbBus::is_stalled`: indices `>= 4` report `true`, everything
else delegates to the `endpoint` module's stall query. -/
def bus_is_stalled (st : StallState) (ep_addr : EndpointAddress) : Bool :=
  if 4 ≤ ep_addr.index then true else endpoint_is_stalled st ep_addr

/-! ### The `poll` event-translation state machine -/

/-- The top-level interrupt status bits of `GINTSTS` that `poll` reads
(`WKUPINT, USBSUSP, ENUMDNE, USBRST, IEPINT, RXFLVL`). -/
structure GintSts where
  wkupint : Bool
  usbsusp : Bool
  enumdne : Bool
  usbrst : Bool
  iepint : Bool
  rxflvl : Bool
deriving DecidableEq, Repr

/-- One receive-FIFO status entry as read from `GRXSTSR` (`EPNUM`, `BCNT`,
`PKTSTS`). -/
structure GrxEntry where
  epnum : Nat
  bcnt : Nat
  pktsts : Nat
deriving DecidableEq, Repr

/-- Hardware register state that `poll` reads and writes.  `rxFifo` is the
queue of receive-FIFO status entries: `GRXSTSR` reads its head without
popping, `GRXSTSP` pops it.  `diepint_xfrc` holds each IN endpoint's latched
transfer-complete bit, `dieptsiz_pktcnt` each IN endpoint's `PKTCNT` field.
Transmit-FIFO flushes and `CNAK`/`EPENA` re-arms are recorded in logs (their
busy-waits complete); an RX-FIFO flush empties `rxFifo`. -/
structure CoreState where
  coreId : Nat
  gintsts : GintSts
  rxFifo : List GrxEntry
  diepint_xfrc : List Bool
  dieptsiz_pktcnt : List Nat
  daintmsk : Nat
  txFlushLog : List Nat
  rearmLog : List Nat
deriving DecidableEq, Repr

/-- The full driver state seen by `poll`: the endpoint allocator (whose
endpoint objects `poll` reads and whose OUT buffers it fills) plus the
hardware registers. -/
structure UsbBusState where
  allocator : EndpointAllocator
  core : CoreState
deriving DecidableEq, Repr

/-- Mirrors `usb_device::bus::PollResult`. -/
inductive PollResult where
  | pollNone
  | reset
  | resume
  | suspend
  | data (ep_out : Nat) (ep_in_complete : Nat) (ep_setup : Nat)
deriving DecidableEq, Repr

/-- The OUT mask of a `Data` event (zero for every other event). -/
def PollResult.outMask : PollResult → Nat
  | PollResult.data o _ _ => o
  | _ => 0

/-- The IN-complete mask of a `Data` event (zero for every other event). -/
def PollResult.inCompleteMask : PollResult → Nat
  | PollResult.data _ i _ => i
  | _ => 0

/-- The SETUP mask of a `Data` event (zero for every other event). -/
def PollResult.setupMask : PollResult → Nat
  | PollResult.data _ _ s => s
  | _ => 0

/-- Whether a result is a `Data` event. -/
def PollResult.isData : PollResult → Bool
  | PollResult.data _ _ _ => true
  | _ => false

/-- Pop `GRXSTSP`: drop the head receive-FIFO status entry. -/
def popRx (s : UsbBusState) : UsbBusState :=
  { s with core := { s.core with rxFifo := s.core.rxFifo.tail } }

/-- Flush one transmit FIFO (`GRSTCTL` `TXFNUM`/`TXFFLSH`, busy-wait
completes); the flushed FIFO number is logged. -/
def flushTxFifo (s : UsbBusState) (n : Nat) : UsbBusState :=
  { s with core := { s.core with txFlushLog := n :: s.core.txFlushLog } }

/-- Re-arm a hardware OUT endpoint (`DOEPCTL` `CNAK`/`EPENA`); the re-armed
endpoint number is logged. -/
def rearmOut (s : UsbBusState) (n : Nat) : UsbBusState :=
  { s with core := { s.core with rearmLog := n :: s.core.rearmLog } }

/-- The F429-like core identifiers checked by `poll`. -/
def isF429Core (cid : Nat) : Bool := cid = 0x00001200 || cid = 0x00001100

/-- The F446-like core identifiers checked by `poll`. -/
def isF446Core (cid : Nat) : Bool := cid = 0x00002000 || cid = 0x00002100

/-- Modelled from the spec: `buffer.fill_from_fifo(data_size, is_setup)` of
the endpoint buffer module (not under `src/`) — "Empty→DataOut/DataSetup
when the controller signals a completed OUT or SETUP packet and the buffer
accepts the bytes".  The already-fetched OUT endpoint `ep` at slot `epnum`
has its buffer tagged Setup vs Out. -/
def fillOutBuffer (s : UsbBusState) (epnum : Nat) (ep : EndpointOut) (isSetup : Bool) :
    UsbBusState :=
  let filled : EndpointOut :=
    { ep with bufState :=
        if isSetup then EndpointBufferState.dataSetup else EndpointBufferState.dataOut }
  { s with allocator :=
      { s.allocator with endpoints_out := s.allocator.endpoints_out.set epnum (some filled) } }

/-- The `match status` over the `GRXSTSR` entry in `poll`'s data path:
returns the (`ep_out`, `ep_setup`) mask contributions and the updated state
(a SETUP with a stuck IN packet flushes that transmit FIFO; OUT/SETUP
completions re-arm on F429-like cores and pop; unknown codes pop). -/
def rxFirstMatch (s : UsbBusState) (e : GrxEntry) : Nat × Nat × UsbBusState :=
  if e.pktsts = 2 then
    ((1 : Nat) <<< e.epnum, 0, s)
  else if e.pktsts = 6 then
    let s := if s.core.dieptsiz_pktcnt.getD e.epnum 0 ≠ 0 then flushTxFifo s e.epnum else s
    (0, (1 : Nat) <<< e.epnum, s)
  else if e.pktsts = 3 ∨ e.pktsts = 4 then
    let s := if isF429Core s.core.coreId then rearmOut s e.epnum else s
    (0, 0, popRx s)
  else
    (0, 0, popRx s)

/-- The `if status == 0x02 || status == 0x06` block of `poll`'s data path:
when the targeted OUT endpoint exists and its software buffer is Empty, pop
the status entry, fill the buffer from the FIFO, and re-arm on F446-like
cores; otherwise leave the entry unpopped (backpressure). -/
def rxFillCheck (s : UsbBusState) (e : GrxEntry) : UsbBusState :=
  if e.pktsts = 2 ∨ e.pktsts = 6 then
    match s.allocator.endpoints_out.getD e.epnum none with
    | some ep =>
        if ep.bufState = EndpointBufferState.empty then
          if isF446Core s.core.coreId then
            rearmOut (fillOutBuffer (popRx s) e.epnum ep (e.pktsts = 6)) e.epnum
          else
            fillOutBuffer (popRx s) e.epnum ep (e.pktsts = 6)
        else s
    | none => s
  else s

/-- The whole `rxflvl` branch of `poll`'s data path: read `GRXSTSR` (the
FIFO head, without popping), run the status match, then the fill check. -/
def rxPass (s : UsbBusState) : Nat × Nat × UsbBusState :=
  let e := s.core.rxFifo.headD ⟨0, 0, 0⟩
  let r := rxFirstMatch s e
  (r.1, r.2.1, rxFillCheck r.2.2 e)

/-- The scan over `endpoints_in` in `poll`'s `iep` branch: for each
allocated IN endpoint whose `DIEPINT.XFRC` is latched, acknowledge the latch
and set the endpoint's bit in the IN-complete mask. -/
def scanInXfrc (xfrc : List Bool) (mask : Nat) : List (Option EndpointIn) → Nat × List Bool
  | [] => (mask, xfrc)
  | none :: rest => scanInXfrc xfrc mask rest
  | some ep :: rest =>
      if xfrc.getD ep.address.index false then
        scanInXfrc (xfrc.set ep.address.index false)
          (mask ||| ((1 : Nat) <<< ep.address.index)) rest
      else
        scanInXfrc xfrc mask rest

/-- The `iep` branch of `poll`'s data path as a state transformer. -/
def iepPass (s : UsbBusState) : Nat × UsbBusState :=
  let r := scanInXfrc s.core.diepint_xfrc 0 s.allocator.endpoints_in
  (r.1, { s with core := { s.core with diepint_xfrc := r.2 } })

/-- The second pass over every allocated OUT endpoint's buffer state,
folding `DataOut`/`DataSetup` buffers into the OUT and SETUP masks. -/
def outBufferMasks : List (Option EndpointOut) → Nat → Nat → Nat × Nat
  | [], o, st => (o, st)
  | none :: rest, o, st => outBufferMasks rest o st
  | some ep :: rest, o, st =>
      match ep.bufState with
      | EndpointBufferState.dataOut =>
          outBufferMasks rest (o ||| ((1 : Nat) <<< ep.address.index)) st
      | EndpointBufferState.dataSetup =>
          outBufferMasks rest o (st ||| ((1 : Nat) <<< ep.address.index))
      | EndpointBufferState.empty => outBufferMasks rest o st

/-- The final report of `poll`'s data path: a `Data` event when any of the
three masks is non-zero, otherwise no event. -/
def mkResult (ep_out ep_in_complete ep_setup : Nat) (s : UsbBusState) :
    PollResult × UsbBusState :=
  if ep_in_complete ||| ep_out ||| ep_setup ≠ 0 then
    (PollResult.data ep_out ep_in_complete ep_setup, s)
  else
    (PollResult.pollNone, s)

/-- Mirrors the data path (the final `else` branch) of `poll`: the
`GRXSTSR` pass when `rxflvl` was read set, the `XFRC` scan when `iep` was
read set, the OUT-buffer second pass, then the report. -/
def pollData (g : GintSts) (s : UsbBusState) : PollResult × UsbBusState :=
  let r1 := if g.rxflvl then rxPass s else (0, 0, s)
  let r2 := if g.iepint then iepPass r1.2.2 else (0, r1.2.2)
  let m := outBufferMasks r2.2.allocator.endpoints_out r1.1 r1.2.1
  mkResult m.1 r2.1 m.2 r2.2

/-- Mirrors `EndpointIn::deconfigure` (hardware endpoint disabled). -/
def EndpointIn.deconfigure (ep : EndpointIn) : EndpointIn := { ep with configured := false }

/-- Mirrors `EndpointOut::deconfigure` (hardware endpoint disabled). -/
def EndpointOut.deconfigure (ep : EndpointOut) : EndpointOut := { ep with configured := false }

/-- Mirrors `UsbBus::deconfigure_all`: mask both `DAINTMSK` halves and call
`deconfigure` on every allocated endpoint of both directions. -/
def deconfigure_all (s : UsbBusState) : UsbBusState :=
  { s with
    core := { s.core with daintmsk := 0 }
    allocator := { s.allocator with
      endpoints_in := s.allocator.endpoints_in.map (Option.map EndpointIn.deconfigure)
      endpoints_out := s.allocator.endpoints_out.map (Option.map EndpointOut.deconfigure) } }

/-- The `if reset != 0` block of `poll`: acknowledge `USBRST`, deconfigure
all endpoints, flush the receive FIFO (busy-wait completes, so its queue
empties). -/
def handleReset (s : UsbBusState) : UsbBusState :=
  let s1 := { s with core := { s.core with
    gintsts := { s.core.gintsts with usbrst := false } } }
  let s2 := deconfigure_all s1
  { s2 with core := { s2.core with rxFifo := [] } }

/-- Acknowledge the `ENUMDNE` latch. -/
def ackEnumdne (s : UsbBusState) : UsbBusState :=
  { s with core := { s.core with gintsts := { s.core.gintsts with enumdne := false } } }

/-- Acknowledge the `WKUPINT` latch. -/
def ackWkupint (s : UsbBusState) : UsbBusState :=
  { s with core := { s.core with gintsts := { s.core.gintsts with wkupint := false } } }

/-- Acknowledge the `USBSUSP` latch. -/
def ackUsbsusp (s : UsbBusState) : UsbBusState :=
  { s with core := { s.core with gintsts := { s.core.gintsts with usbsusp := false } } }

/-- Mirrors `UsbBus::poll`.  The six `GINTSTS` bits are read once up front;
a latched `USBRST` runs `handleReset` before the event branches, which are
decided on the initially-read bits. -/
def poll (s : UsbBusState) : PollResult × UsbBusState :=
  let g := s.core.gintsts
  let s := if g.usbrst then handleReset s else s
  if g.enumdne then
    (PollResult.reset, ackEnumdne s)
  else if g.wkupint then
    (PollResult.resume, ackWkupint s)
  else if g.usbsusp then
    (PollResult.suspend, ackUsbsusp s)
  else
    pollData g s

/-! ### Bit-level and list-level helper lemmas -/

theorem and_one_shiftLeft_eq_zero (b n : Nat) :
    (b &&& (1 <<< n) = 0) ↔ b.testBit n = false := by
  rw [Nat.one_shiftLeft, Nat.and_two_pow]
  rcases h : b.testBit n with _ | _
  · simp
  · simp [(Nat.two_pow_pos n).ne']

theorem testBit_or_one_shiftLeft (b n m : Nat) :
    (b ||| (1 <<< n)).testBit m = (b.testBit m || decide (n = m)) := by
  rw [Nat.one_shiftLeft, Nat.testBit_or, Nat.testBit_two_pow]

theorem one_shiftLeft_ne_zero (n : Nat) : (1 : Nat) <<< n ≠ 0 := by
  rw [Nat.one_shiftLeft]
  exact (Nat.two_pow_pos n).ne'

theorem ne_zero_of_testBit_true {x n : Nat} (h : x.testBit n = true) : x ≠ 0 := by
  intro hx
  rw [hx, Nat.zero_testBit] at h
  exact Bool.noConfusion h

theorem listGetD_set_self {α : Type} (l : List α) (n : Nat) (v d : α) (h : n < l.length) :
    (l.set n v).getD n d = v := by
  induction l generalizing n with
  | nil => exact absurd h (Nat.not_lt_zero n)
  | cons x xs ih =>
      cases n with
      | zero => rfl
      | succ m => exact ih m (Nat.lt_of_succ_lt_succ h)

theorem listGetD_set_ne {α : Type} (l : List α) (m n : Nat) (v d : α) (h : m ≠ n) :
    (l.set n v).getD m d = l.getD m d := by
  induction l generalizing m n with
  | nil => rfl
  | cons x xs ih =>
      cases n with
      | zero =>
          cases m with
          | zero => exact absurd rfl h
          | succ k => rfl
      | succ n' =>
          cases m with
          | zero => rfl
          | succ k => exact ih k n' fun hk => h (congrArg Nat.succ hk)

theorem lt_length_of_getD_ne_default {α : Type} (l : List α) (n : Nat) (d : α)
    (h : l.getD n d ≠ d) : n < l.length := by
  induction l generalizing n with
  | nil => exact absurd rfl h
  | cons x xs ih =>
      cases n with
      | zero => exact Nat.succ_pos _
      | succ m => exact Nat.succ_lt_succ (ih m h)

theorem mem_of_getD_some {α : Type} (l : List (Option α)) (n : Nat) (a : α)
    (h : l.getD n none = some a) : some a ∈ l := by
  induction l generalizing n with
  | nil => exact absurd h (by simp)
  | cons x xs ih =>
      cases n with
      | zero => exact h ▸ List.mem_cons_self x xs
      | succ m => exact List.mem_cons_of_mem x (ih m h)

theorem mem_set_cases {α : Type} {a : α} {l : List α} {n : Nat} {v : α}
    (h : a ∈ l.set n v) : a ∈ l ∨ a = v := by
  induction l generalizing n with
  | nil => exact Or.inl h
  | cons x xs ih =>
      cases n with
      | zero =>
          rcases List.mem_cons.mp h with h | h
          · exact Or.inr h
          · exact Or.inl (List.mem_cons_of_mem x h)
      | succ m =>
          rcases List.mem_cons.mp h with h | h
          · exact Or.inl (h ▸ List.mem_cons_self x xs)
          · rcases ih h with h | h
            · exact Or.inl (List.mem_cons_of_mem x h)
            · exact Or.inr h

/-! ### Allocator lemmas -/

@[simp]
theorem bitmapFor_dirIn (a : EndpointAllocator) :
    a.bitmapFor UsbDirection.dirIn = a.bitmap_in := rfl

@[simp]
theorem bitmapFor_dirOut (a : EndpointAllocator) :
    a.bitmapFor UsbDirection.dirOut = a.bitmap_out := rfl

/-- Exhaustive shape of `alloc_number` on an explicit number request. -/
theorem alloc_number_some (b n : Nat) :
    alloc_number b (some n) =
      (if 4 ≤ n then Except.error UsbError.invalidEndpoint
       else if b.testBit n = false then Except.ok (b ||| (1 <<< n), n)
       else Except.error UsbError.invalidEndpoint) := by
  unfold alloc_number ENDPOINT_COUNT
  by_cases h4 : 4 ≤ n
  · simp [h4]
  · by_cases hb : b.testBit n = false
    · simp [h4, (and_one_shiftLeft_eq_zero b n).mpr hb, hb]
    · have : ¬ (b &&& (1 <<< n) = 0) := fun hz => hb ((and_one_shiftLeft_eq_zero b n).mp hz)
      simp [h4, this, hb]

/-- Exhaustive case split of the automatic-number scan of `alloc_number`:
the first free number among 1, 2, 3 is claimed, otherwise the call overflows. -/
theorem alloc_number_none_cases (b : Nat) :
    (b.testBit 1 = false ∧ alloc_number b none = Except.ok (b ||| (1 <<< 1), 1)) ∨
    (b.testBit 1 = true ∧ b.testBit 2 = false ∧
      alloc_number b none = Except.ok (b ||| (1 <<< 2), 2)) ∨
    (b.testBit 1 = true ∧ b.testBit 2 = true ∧ b.testBit 3 = false ∧
      alloc_number b none = Except.ok (b ||| (1 <<< 3), 3)) ∨
    (b.testBit 1 = true ∧ b.testBit 2 = true ∧ b.testBit 3 = true ∧
      alloc_number b none = Except.error UsbError.endpointOverflow) := by
  have hr : (List.range ENDPOINT_COUNT).drop 1 = [1, 2, 3] := by decide
  have hdef : alloc_number b none = alloc_number_scan b [1, 2, 3] := by
    unfold alloc_number; rw [hr]
  by_cases h1 : b.testBit 1 = false
  · refine Or.inl ⟨h1, ?_⟩
    rw [hdef]
    simp only [alloc_number_scan]
    rw [if_pos ((and_one_shiftLeft_eq_zero b 1).mpr h1)]
  · have h1t : b.testBit 1 = true := by revert h1; cases b.testBit 1 <;> simp
    have h1z : ¬ (b &&& (1 <<< 1) = 0) := fun hz => h1 ((and_one_shiftLeft_eq_zero b 1).mp hz)
    by_cases h2 : b.testBit 2 = false
    · refine Or.inr (Or.inl ⟨h1t, h2, ?_⟩)
      rw [hdef]
      simp only [alloc_number_scan]
      rw [if_neg h1z, if_pos ((and_one_shiftLeft_eq_zero b 2).mpr h2)]
    · have h2t : b.testBit 2 = true := by revert h2; cases b.testBit 2 <;> simp
      have h2z : ¬ (b &&& (1 <<< 2) = 0) := fun hz => h2 ((and_one_shiftLeft_eq_zero b 2).mp hz)
      by_cases h3 : b.testBit 3 = false
      · refine Or.inr (Or.inr (Or.inl ⟨h1t, h2t, h3, ?_⟩))
        rw [hdef]
        simp only [alloc_number_scan]
        rw [if_neg h1z, if_neg h2z, if_pos ((and_one_shiftLeft_eq_zero b 3).mpr h3)]
      · have h3t : b.testBit 3 = true := by revert h3; cases b.testBit 3 <;> simp
        have h3z : ¬ (b &&& (1 <<< 3) = 0) :=
          fun hz => h3 ((and_one_shiftLeft_eq_zero b 3).mp hz)
        refine Or.inr (Or.inr (Or.inr ⟨h1t, h2t, h3t, ?_⟩))
        rw [hdef]
        simp only [alloc_number_scan]
        rw [if_neg h1z, if_neg h2z, if_neg h3z]

/-- When number allocation fails, `alloc_ep` propagates the error and leaves
the allocator untouched. -/
theorem alloc_ep_of_alloc_number_error (a : EndpointAllocator) (dir : UsbDirection)
    (addrReq : Option EndpointAddress) (t : EndpointType) (mps iv : Nat) (e : UsbError)
    (h : alloc_number (a.bitmapFor dir) (addrReq.map (·.index)) = Except.error e) :
    a.alloc_ep dir addrReq t mps iv = (Except.error e, a) := by
  cases dir with
  | dirIn =>
      have h' : alloc_number a.bitmap_in (addrReq.map (·.index)) = Except.error e := h
      simp [EndpointAllocator.alloc_ep, EndpointAllocator.alloc_in, alloc, h']
  | dirOut =>
      have h' : alloc_number a.bitmap_out (addrReq.map (·.index)) = Except.error e := h
      simp [EndpointAllocator.alloc_ep, EndpointAllocator.alloc_out, alloc, h']

/-- When number allocation succeeds for the IN direction, `alloc_ep`
records the endpoint and returns the claimed address. -/
theorem alloc_ep_in_ok (a : EndpointAllocator) (addrReq : Option EndpointAddress)
    (t : EndpointType) (mps iv : Nat) (bm n : Nat)
    (h : alloc_number a.bitmap_in (addrReq.map (·.index)) = Except.ok (bm, n)) :
    a.alloc_ep UsbDirection.dirIn addrReq t mps iv =
      (Except.ok ⟨n, UsbDirection.dirIn⟩,
        { a with
            bitmap_in := bm
            memory_allocator := a.memory_allocator.allocate_tx_buffer n mps
            endpoints_in := a.endpoints_in.set n
              (some ⟨⟨⟨n, UsbDirection.dirIn⟩, t, mps, iv⟩, false⟩) }) := by
  simp [EndpointAllocator.alloc_ep, EndpointAllocator.alloc_in, alloc, h,
    EndpointAddress.from_parts, EndpointIn.address]

/-- When number allocation succeeds for the OUT direction and the receive
buffer fits, `alloc_ep` records the endpoint and returns the claimed
address. -/
theorem alloc_ep_out_ok (a : EndpointAllocator) (addrReq : Option EndpointAddress)
    (t : EndpointType) (mps iv : Nat) (bm n : Nat) (m' : EndpointMemoryAllocator)
    (h : alloc_number a.bitmap_out (addrReq.map (·.index)) = Except.ok (bm, n))
    (hm : a.memory_allocator.allocate_rx_buffer mps = (Except.ok (), m')) :
    a.alloc_ep UsbDirection.dirOut addrReq t mps iv =
      (Except.ok ⟨n, UsbDirection.dirOut⟩,
        { a with
            bitmap_out := bm
            memory_allocator := m'
            endpoints_out := a.endpoints_out.set n
              (some ⟨⟨⟨n, UsbDirection.dirOut⟩, t, mps, iv⟩,
                EndpointBufferState.empty, false⟩) }) := by
  simp [EndpointAllocator.alloc_ep, EndpointAllocator.alloc_out, alloc, h, hm,
    EndpointAddress.from_parts, EndpointOut.address]

/-- When number allocation succeeds for the OUT direction but the receive
buffer does not fit, `alloc_ep` fails with the memory error while the bitmap
bit stays claimed and no slot is filled. -/
theorem alloc_ep_out_mem_err (a : EndpointAllocator) (addrReq : Option EndpointAddress)
    (t : EndpointType) (mps iv : Nat) (bm n : Nat) (e : UsbError)
    (m' : EndpointMemoryAllocator)
    (h : alloc_number a.bitmap_out (addrReq.map (·.index)) = Except.ok (bm, n))
    (hm : a.memory_allocator.allocate_rx_buffer mps = (Except.error e, m')) :
    a.alloc_ep UsbDirection.dirOut addrReq t mps iv =
      (Except.error e, { a with bitmap_out := bm, memory_allocator := m' }) := by
  simp [EndpointAllocator.alloc_ep, EndpointAllocator.alloc_out, alloc, h, hm]

/-! ### Poll helper lemmas -/

@[simp]
theorem popRx_allocator (s : UsbBusState) : (popRx s).allocator = s.allocator := rfl

@[simp]
theorem popRx_gintsts (s : UsbBusState) : (popRx s).core.gintsts = s.core.gintsts := rfl

@[simp]
theorem popRx_rxFifo (s : UsbBusState) : (popRx s).core.rxFifo = s.core.rxFifo.tail := rfl

@[simp]
theorem popRx_diepint (s : UsbBusState) :
    (popRx s).core.diepint_xfrc = s.core.diepint_xfrc := rfl

@[simp]
theorem flushTxFifo_allocator (s : UsbBusState) (n : Nat) :
    (flushTxFifo s n).allocator = s.allocator := rfl

@[simp]
theorem flushTxFifo_gintsts (s : UsbBusState) (n : Nat) :
    (flushTxFifo s n).core.gintsts = s.core.gintsts := rfl

@[simp]
theorem flushTxFifo_rxFifo (s : UsbBusState) (n : Nat) :
    (flushTxFifo s n).core.rxFifo = s.core.rxFifo := rfl

@[simp]
theorem rearmOut_allocator (s : UsbBusState) (n : Nat) :
    (rearmOut s n).allocator = s.allocator := rfl

@[simp]
theorem rearmOut_gintsts (s : UsbBusState) (n : Nat) :
    (rearmOut s n).core.gintsts = s.core.gintsts := rfl

@[simp]
theorem rearmOut_rxFifo (s : UsbBusState) (n : Nat) :
    (rearmOut s n).core.rxFifo = s.core.rxFifo := rfl

@[simp]
theorem fillOutBuffer_core (s : UsbBusState) (n : Nat) (ep : EndpointOut) (b : Bool) :
    (fillOutBuffer s n ep b).core = s.core := rfl

@[simp]
theorem fillOutBuffer_endpoints_in (s : UsbBusState) (n : Nat) (ep : EndpointOut) (b : Bool) :
    (fillOutBuffer s n ep b).allocator.endpoints_in = s.allocator.endpoints_in := rfl

@[simp]
theorem iepPass_allocator (s : UsbBusState) : (iepPass s).2.allocator = s.allocator := rfl

@[simp]
theorem iepPass_gintsts (s : UsbBusState) : (iepPass s).2.core.gintsts = s.core.gintsts := rfl

@[simp]
theorem iepPass_rxFifo (s : UsbBusState) : (iepPass s).2.core.rxFifo = s.core.rxFifo := rfl

@[simp]
theorem mkResult_snd (o i st : Nat) (s : UsbBusState) : (mkResult o i st s).snd = s := by
  unfold mkResult; split <;> rfl

theorem mkResult_fst_ne_reset (o i st : Nat) (s : UsbBusState) :
    (mkResult o i st s).fst ≠ PollResult.reset := by
  unfold mkResult; split <;> simp

theorem mkResult_fst_of_ne_zero (o i st : Nat) (s : UsbBusState)
    (h : i ||| o ||| st ≠ 0) : (mkResult o i st s).fst = PollResult.data o i st := by
  unfold mkResult; rw [if_pos h]

/-- The first-pass status match never touches the interrupt bits or the
allocator. -/
theorem rxFirstMatch_gintsts (s : UsbBusState) (e : GrxEntry) :
    (rxFirstMatch s e).2.2.core.gintsts = s.core.gintsts := by
  unfold rxFirstMatch; split_ifs <;> rfl

theorem rxFirstMatch_allocator (s : UsbBusState) (e : GrxEntry) :
    (rxFirstMatch s e).2.2.allocator = s.allocator := by
  unfold rxFirstMatch; split_ifs <;> rfl

theorem rxFirstMatch_rxFifo_nil (s : UsbBusState) (e : GrxEntry)
    (h : s.core.rxFifo = []) : (rxFirstMatch s e).2.2.core.rxFifo = [] := by
  unfold rxFirstMatch; split_ifs <;> simp [h]

/-- The first-pass status match on an OUT-received entry: the endpoint's bit
goes into the OUT mask and the state is untouched (no pop). -/
theorem rxFirstMatch_out_received (s : UsbBusState) (e : GrxEntry) (hsts : e.pktsts = 2) :
    rxFirstMatch s e = ((1 : Nat) <<< e.epnum, 0, s) := by
  unfold rxFirstMatch; rw [if_pos hsts]

/-- The fill check leaves the state untouched when the targeted OUT
endpoint's buffer is not Empty (backpressure: no pop, no fill, no re-arm). -/
theorem rxFillCheck_nonempty (s : UsbBusState) (e : GrxEntry) (ep : EndpointOut)
    (hslot : s.allocator.endpoints_out.getD e.epnum none = some ep)
    (hbuf : ep.bufState ≠ EndpointBufferState.empty) :
    rxFillCheck s e = s := by
  unfold rxFillCheck
  split
  · simp only [hslot]
    exact if_neg hbuf
  · rfl

/-- The fill check leaves the state untouched when no OUT endpoint is
allocated at the targeted number. -/
theorem rxFillCheck_none (s : UsbBusState) (e : GrxEntry)
    (hslot : s.allocator.endpoints_out.getD e.epnum none = none) :
    rxFillCheck s e = s := by
  unfold rxFillCheck
  split
  · simp only [hslot]
  · rfl

theorem rxFillCheck_gintsts (s : UsbBusState) (e : GrxEntry) :
    (rxFillCheck s e).core.gintsts = s.core.gintsts := by
  unfold rxFillCheck
  split
  · split
    · split_ifs <;> rfl
    · rfl
  · rfl

theorem rxFillCheck_endpoints_in (s : UsbBusState) (e : GrxEntry) :
    (rxFillCheck s e).allocator.endpoints_in = s.allocator.endpoints_in := by
  unfold rxFillCheck
  split
  · split
    · split_ifs <;> rfl
    · rfl
  · rfl

theorem rxFillCheck_rxFifo_nil (s : UsbBusState) (e : GrxEntry)
    (h : s.core.rxFifo = []) : (rxFillCheck s e).core.rxFifo = [] := by
  unfold rxFillCheck
  split
  · split
    · split_ifs <;> simp [h]
    · exact h
  · exact h

/-- The OUT-endpoint slots after the fill check: either unchanged, or with
one slot overwritten by its own buffer-filled copy. -/
theorem rxFillCheck_endpoints_out_cases (s : UsbBusState) (e : GrxEntry) :
    (rxFillCheck s e).allocator.endpoints_out = s.allocator.endpoints_out ∨
    ∃ ep1, s.allocator.endpoints_out.getD e.epnum none = some ep1 ∧
      (rxFillCheck s e).allocator.endpoints_out =
        s.allocator.endpoints_out.set e.epnum
          (some { ep1 with bufState :=
            if e.pktsts = 6 then EndpointBufferState.dataSetup
            else EndpointBufferState.dataOut }) := by
  unfold rxFillCheck
  split
  · split
    · rename_i ep1 hslot
      split_ifs <;>
        first
          | exact Or.inl rfl
          | (refine Or.inr ⟨ep1, hslot, ?_⟩
             simp_all [rearmOut, fillOutBuffer, popRx])
    · exact Or.inl rfl
  · exact Or.inl rfl

/-- Every OUT endpoint surviving the fill check keeps its configured flag
(only the buffer state can change). -/
theorem rxFillCheck_out_configured (s : UsbBusState) (e : GrxEntry) :
    ∀ ep, some ep ∈ (rxFillCheck s e).allocator.endpoints_out →
      ∃ ep0, some ep0 ∈ s.allocator.endpoints_out ∧ ep.configured = ep0.configured := by
  intro ep hep
  rcases rxFillCheck_endpoints_out_cases s e with h | ⟨ep1, hslot, h⟩
  · rw [h] at hep
    exact ⟨ep, hep, rfl⟩
  · rw [h] at hep
    rcases mem_set_cases hep with hm | hm
    · exact ⟨ep, hm, rfl⟩
    · refine ⟨ep1, mem_of_getD_some _ _ _ hslot, ?_⟩
      rcases Option.some.inj hm with rfl
      rfl

theorem rxPass_gintsts (s : UsbBusState) :
    (rxPass s).2.2.core.gintsts = s.core.gintsts := by
  unfold rxPass
  rw [rxFillCheck_gintsts, rxFirstMatch_gintsts]

theorem rxPass_endpoints_in (s : UsbBusState) :
    (rxPass s).2.2.allocator.endpoints_in = s.allocator.endpoints_in := by
  unfold rxPass
  rw [rxFillCheck_endpoints_in, rxFirstMatch_allocator]

theorem rxPass_rxFifo_nil (s : UsbBusState) (h : s.core.rxFifo = []) :
    (rxPass s).2.2.core.rxFifo = [] := by
  unfold rxPass
  exact rxFillCheck_rxFifo_nil _ _ (rxFirstMatch_rxFifo_nil s _ h)

theorem rxPass_out_configured (s : UsbBusState) :
    ∀ ep, some ep ∈ (rxPass s).2.2.allocator.endpoints_out →
      ∃ ep0, some ep0 ∈ s.allocator.endpoints_out ∧ ep.configured = ep0.configured := by
  intro ep hep
  unfold rxPass at hep
  rcases rxFillCheck_out_configured _ _ ep hep with ⟨ep1, hep1, hc⟩
  rw [rxFirstMatch_allocator] at hep1
  exact ⟨ep1, hep1, hc⟩

/-- The `XFRC` scan is a no-op when no allocated IN endpoint has a latched
transfer-complete bit. -/
theorem scanInXfrc_noLatch (xfrc : List Bool) (mask : Nat)
    (eps : List (Option EndpointIn))
    (h : ∀ e, some e ∈ eps → xfrc.getD e.address.index false = false) :
    scanInXfrc xfrc mask eps = (mask, xfrc) := by
  induction eps with
  | nil => rfl
  | cons hd rest ih =>
      cases hd with
      | none =>
          exact ih fun e he => h e (List.mem_cons_of_mem none he)
      | some e0 =>
          unfold scanInXfrc
          rw [h e0 (List.mem_cons_self _ _)]
          simp only [Bool.false_eq_true, if_false]
          exact ih fun e he => h e (List.mem_cons_of_mem (some e0) he)

/-- The `XFRC` scan when exactly the endpoints of index `N` are latched:
bit `N` joins the mask and the latch at `N` is acknowledged. -/
theorem scanInXfrc_single (xfrc : List Bool) (mask N : Nat)
    (eps : List (Option EndpointIn)) (epN : EndpointIn)
    (hmem : some epN ∈ eps) (hidx : epN.address.index = N)
    (hlat : xfrc.getD N false = true)
    (hoth : ∀ e, some e ∈ eps → e.address.index ≠ N →
        xfrc.getD e.address.index false = false) :
    scanInXfrc xfrc mask eps = (mask ||| ((1 : Nat) <<< N), xfrc.set N false) := by
  have hNlen : N < xfrc.length := by
    refine lt_length_of_getD_ne_default xfrc N false ?_
    rw [hlat]; exact Bool.noConfusion
  induction eps generalizing mask with
  | nil => exact absurd hmem (List.not_mem_nil _)
  | cons hd rest ih =>
      cases hd with
      | none =>
          have hmem' : some epN ∈ rest := by
            rcases List.mem_cons.mp hmem with h | h
            · exact absurd h (by simp)
            · exact h
          exact ih mask hmem' (fun e he hne => hoth e (List.mem_cons_of_mem none he) hne)
      | some e0 =>
          by_cases he0 : e0.address.index = N
          · unfold scanInXfrc
            rw [he0, hlat]
            simp only [if_true]
            refine scanInXfrc_noLatch _ _ _ ?_
            intro e he
            by_cases hei : e.address.index = N
            · rw [hei, listGetD_set_self xfrc N false false hNlen]
            · rw [listGetD_set_ne xfrc e.address.index N false false hei]
              exact hoth e (List.mem_cons_of_mem (some e0) he) hei
          · have hmem' : some epN ∈ rest := by
              rcases List.mem_cons.mp hmem with h | h
              · rcases Option.some.inj h with rfl
                exact absurd hidx he0
              · exact h
            unfold scanInXfrc
            rw [hoth e0 (List.mem_cons_self _ _) he0]
            simp only [Bool.false_eq_true, if_false]
            exact ih mask hmem' (fun e he hne => hoth e (List.mem_cons_of_mem (some e0) he) hne)

/-- The second pass over OUT buffers only ever ORs further bits into the
incoming masks. -/
theorem outBufferMasks_or (outs : List (Option EndpointOut)) (o st : Nat) :
    ∃ x y, outBufferMasks outs o st = (o ||| x, st ||| y) := by
  induction outs generalizing o st with
  | nil => exact ⟨0, 0, by simp [outBufferMasks]⟩
  | cons hd rest ih =>
      cases hd with
      | none =>
          obtain ⟨x, y, hxy⟩ := ih o st
          exact ⟨x, y, by simpa [outBufferMasks] using hxy⟩
      | some ep =>
          cases hb : ep.bufState with
          | empty =>
              obtain ⟨x, y, hxy⟩ := ih o st
              exact ⟨x, y, by simp [outBufferMasks, hb, hxy]⟩
          | dataOut =>
              obtain ⟨x, y, hxy⟩ := ih (o ||| ((1 : Nat) <<< ep.address.index)) st
              refine ⟨((1 : Nat) <<< ep.address.index) ||| x, y, ?_⟩
              simp [outBufferMasks, hb, hxy, Nat.or_assoc]
          | dataSetup =>
              obtain ⟨x, y, hxy⟩ := ih o (st ||| ((1 : Nat) <<< ep.address.index))
              refine ⟨x, ((1 : Nat) <<< ep.address.index) ||| y, ?_⟩
              simp [outBufferMasks, hb, hxy, Nat.or_assoc]

/-- The second pass is the identity when every allocated OUT endpoint's
buffer is Empty. -/
theorem outBufferMasks_allEmpty (outs : List (Option EndpointOut)) (o st : Nat)
    (h : ∀ e, some e ∈ outs → e.bufState = EndpointBufferState.empty) :
    outBufferMasks outs o st = (o, st) := by
  induction outs with
  | nil => rfl
  | cons hd rest ih =>
      cases hd with
      | none =>
          exact ih fun e he => h e (List.mem_cons_of_mem none he)
      | some ep =>
          unfold outBufferMasks
          rw [h ep (List.mem_cons_self _ _)]
          exact ih fun e he => h e (List.mem_cons_of_mem (some ep) he)

theorem testBit_one_shiftLeft_self (n : Nat) : ((1 : Nat) <<< n).testBit n = true := by
  rw [Nat.one_shiftLeft, Nat.testBit_two_pow]
  simp

/-! ### pollData and poll composition lemmas -/

theorem pollData_snd_gintsts (g : GintSts) (s : UsbBusState) :
    (pollData g s).snd.core.gintsts = s.core.gintsts := by
  unfold pollData
  rcases hx : g.rxflvl with _ | _ <;> rcases hi : g.iepint with _ | _ <;>
    simp [hx, hi, mkResult_snd, iepPass_gintsts, rxPass_gintsts]

theorem pollData_snd_endpoints_in (g : GintSts) (s : UsbBusState) :
    (pollData g s).snd.allocator.endpoints_in = s.allocator.endpoints_in := by
  unfold pollData
  rcases hx : g.rxflvl with _ | _ <;> rcases hi : g.iepint with _ | _ <;>
    simp [hx, hi, mkResult_snd, iepPass_allocator, rxPass_endpoints_in]

theorem pollData_snd_rxFifo_nil (g : GintSts) (s : UsbBusState)
    (h : s.core.rxFifo = []) : (pollData g s).snd.core.rxFifo = [] := by
  unfold pollData
  rcases hx : g.rxflvl with _ | _ <;> rcases hi : g.iepint with _ | _ <;>
    simp [hx, hi, mkResult_snd, iepPass_rxFifo, rxPass_rxFifo_nil s h, h]

theorem pollData_snd_out_configured (g : GintSts) (s : UsbBusState) :
    ∀ ep, some ep ∈ (pollData g s).snd.allocator.endpoints_out →
      ∃ ep0, some ep0 ∈ s.allocator.endpoints_out ∧ ep.configured = ep0.configured := by
  intro ep hep
  unfold pollData at hep
  rcases hx : g.rxflvl with _ | _ <;> rcases hi : g.iepint with _ | _ <;>
      rw [hx, hi] at hep <;>
      simp only [Bool.false_eq_true, if_false, if_true, mkResult_snd,
        iepPass_allocator] at hep
  · exact ⟨ep, hep, rfl⟩
  · exact ⟨ep, hep, rfl⟩
  · exact rxPass_out_configured s ep hep
  · exact rxPass_out_configured s ep hep

theorem pollData_fst_ne_reset (g : GintSts) (s : UsbBusState) :
    (pollData g s).fst ≠ PollResult.reset := by
  unfold pollData
  exact mkResult_fst_ne_reset _ _ _ _

/-- After `deconfigure_all` every allocated IN endpoint is deconfigured. -/
theorem deconfigure_all_in (s : UsbBusState) :
    ∀ e, some e ∈ (deconfigure_all s).allocator.endpoints_in → e.configured = false := by
  intro e he
  unfold deconfigure_all at he
  simp only at he
  obtain ⟨o, _, hoe⟩ := List.mem_map.mp he
  cases o with
  | none => exact absurd hoe (by simp)
  | some e0 =>
      have : e = EndpointIn.deconfigure e0 := by
        simpa [Option.map] using hoe.symm
      rw [this]
      rfl

/-- After `deconfigure_all` every allocated OUT endpoint is deconfigured. -/
theorem deconfigure_all_out (s : UsbBusState) :
    ∀ e, some e ∈ (deconfigure_all s).allocator.endpoints_out → e.configured = false := by
  intro e he
  unfold deconfigure_all at he
  simp only at he
  obtain ⟨o, _, hoe⟩ := List.mem_map.mp he
  cases o with
  | none => exact absurd hoe (by simp)
  | some e0 =>
      have : e = EndpointOut.deconfigure e0 := by
        simpa [Option.map] using hoe.symm
      rw [this]
      rfl

@[simp]
theorem handleReset_gintsts (s : UsbBusState) :
    (handleReset s).core.gintsts = { s.core.gintsts with usbrst := false } := rfl

@[simp]
theorem handleReset_rxFifo (s : UsbBusState) : (handleReset s).core.rxFifo = [] := rfl

theorem handleReset_in_deconfigured (s : UsbBusState) :
    ∀ e, some e ∈ (handleReset s).allocator.endpoints_in → e.configured = false := by
  intro e he
  exact deconfigure_all_in _ e he

theorem handleReset_out_deconfigured (s : UsbBusState) :
    ∀ e, some e ∈ (handleReset s).allocator.endpoints_out → e.configured = false := by
  intro e he
  exact deconfigure_all_out _ e he

@[simp]
theorem ackEnumdne_allocator (s : UsbBusState) : (ackEnumdne s).allocator = s.allocator := rfl

@[simp]
theorem ackEnumdne_rxFifo (s : UsbBusState) : (ackEnumdne s).core.rxFifo = s.core.rxFifo := rfl

@[simp]
theorem ackEnumdne_usbrst (s : UsbBusState) :
    (ackEnumdne s).core.gintsts.usbrst = s.core.gintsts.usbrst := rfl

@[simp]
theorem ackWkupint_allocator (s : UsbBusState) : (ackWkupint s).allocator = s.allocator := rfl

@[simp]
theorem ackWkupint_rxFifo (s : UsbBusState) : (ackWkupint s).core.rxFifo = s.core.rxFifo := rfl

@[simp]
theorem ackWkupint_usbrst (s : UsbBusState) :
    (ackWkupint s).core.gintsts.usbrst = s.core.gintsts.usbrst := rfl

@[simp]
theorem ackUsbsusp_allocator (s : UsbBusState) : (ackUsbsusp s).allocator = s.allocator := rfl

@[simp]
theorem ackUsbsusp_rxFifo (s : UsbBusState) : (ackUsbsusp s).core.rxFifo = s.core.rxFifo := rfl

@[simp]
theorem ackUsbsusp_usbrst (s : UsbBusState) :
    (ackUsbsusp s).core.gintsts.usbrst = s.core.gintsts.usbrst := rfl

/-- `poll` when the reset bit was read set: the event branches run on the
reset-handled state. -/
theorem poll_of_usbrst (s : UsbBusState) (h : s.core.gintsts.usbrst = true) :
    poll s =
      (if s.core.gintsts.enumdne then (PollResult.reset, ackEnumdne (handleReset s))
       else if s.core.gintsts.wkupint then (PollResult.resume, ackWkupint (handleReset s))
       else if s.core.gintsts.usbsusp then (PollResult.suspend, ackUsbsusp (handleReset s))
       else pollData s.core.gintsts (handleReset s)) := by
  unfold poll
  simp [h]

/-- `poll` when none of the reset, enumeration-done, wakeup and suspend bits
were read set: the data path runs on the unchanged state. -/
theorem poll_data_path (s : UsbBusState)
    (hrst : s.core.gintsts.usbrst = false) (henum : s.core.gintsts.enumdne = false)
    (hwk : s.core.gintsts.wkupint = false) (hsus : s.core.gintsts.usbsusp = false) :
    poll s = pollData s.core.gintsts s := by
  unfold poll
  simp [hrst, henum, hwk, hsus]

theorem testBit_or_left {o : Nat} (x : Nat) {n : Nat} (h : o.testBit n = true) :
    (o ||| x).testBit n = true := by
  rw [Nat.testBit_or, h]
  simp

theorem or_testBit_ne_zero {o : Nat} (i st : Nat) {n : Nat} (h : o.testBit n = true) :
    i ||| o ||| st ≠ 0 := by
  intro h0
  have hbit : (i ||| o ||| st).testBit n = true := by
    rw [Nat.testBit_or, Nat.testBit_or, h]
    simp
  rw [h0, Nat.zero_testBit] at hbit
  exact Bool.noConfusion hbit

/-- Core of the OUT-received poll analysis: when the head receive-FIFO entry
is an OUT-received status and the fill check leaves the state untouched
(non-Empty buffer or unallocated endpoint), `poll` leaves the FIFO entry
unpopped yet reports the endpoint's bit in the Data event's OUT mask. -/
theorem poll_out_received_reported (s : UsbBusState) (e : GrxEntry)
    (hrst : s.core.gintsts.usbrst = false) (henum : s.core.gintsts.enumdne = false)
    (hwk : s.core.gintsts.wkupint = false) (hsus : s.core.gintsts.usbsusp = false)
    (hrx : s.core.gintsts.rxflvl = true)
    (hhead : s.core.rxFifo.headD ⟨0, 0, 0⟩ = e) (hsts : e.pktsts = 2)
    (hfill : rxFillCheck s e = s) :
    (poll s).snd.core.rxFifo = s.core.rxFifo ∧
    (poll s).fst.isData = true ∧
    (poll s).fst.outMask.testBit e.epnum = true := by
  have hpass : rxPass s = ((1 : Nat) <<< e.epnum, 0, s) := by
    unfold rxPass
    simp only [hhead]
    rw [rxFirstMatch_out_received s e hsts]
    simp [hfill]
  rw [poll_data_path s hrst henum hwk hsus]
  unfold pollData
  rw [hrx]
  simp only [if_true, hpass]
  rcases hi : s.core.gintsts.iepint with _ | _
  · simp only [Bool.false_eq_true, if_false]
    obtain ⟨x, y, hm⟩ :=
      outBufferMasks_or s.allocator.endpoints_out ((1 : Nat) <<< e.epnum) 0
    simp only [hm]
    have hbit : (((1 : Nat) <<< e.epnum) ||| x).testBit e.epnum = true :=
      testBit_or_left x (testBit_one_shiftLeft_self e.epnum)
    have hne : (0 : Nat) ||| (((1 : Nat) <<< e.epnum) ||| x) ||| (0 ||| y) ≠ 0 :=
      or_testBit_ne_zero 0 (0 ||| y) hbit
    rw [mkResult_fst_of_ne_zero _ _ _ _ hne]
    exact ⟨by rw [mkResult_snd], rfl, hbit⟩
  · simp only [if_true]
    rw [iepPass_allocator]
    obtain ⟨x, y, hm⟩ :=
      outBufferMasks_or s.allocator.endpoints_out ((1 : Nat) <<< e.epnum) 0
    simp only [hm]
    have hbit : (((1 : Nat) <<< e.epnum) ||| x).testBit e.epnum = true :=
      testBit_or_left x (testBit_one_shiftLeft_self e.epnum)
    have hne : (iepPass s).1 ||| (((1 : Nat) <<< e.epnum) ||| x) ||| (0 ||| y) ≠ 0 :=
      or_testBit_ne_zero _ (0 ||| y) hbit
    rw [mkResult_fst_of_ne_zero _ _ _ _ hne]
    refine ⟨?_, rfl, hbit⟩
    rw [mkResult_snd]
    exact iepPass_rxFifo s

/-! ### Claim theorems about `poll` -/

/-- **C1** (amended): for every call to `poll` in which the reset-status bit
is set, `poll` acknowledges the bit, deconfigures all allocated endpoints
and flushes the receive FIFO, independent of any other status bits set in
the same call; it returns a `Reset` event exactly when the enumeration-done
bit was also set — with the reset bit alone it falls through to the
wakeup/suspend/data branches instead. -/
theorem claim_C1_reset_behaviour (s : UsbBusState) (h : s.core.gintsts.usbrst = true) :
    ((poll s).fst = PollResult.reset ↔ s.core.gintsts.enumdne = true) ∧
    (poll s).snd.core.gintsts.usbrst = false ∧
    (poll s).snd.core.rxFifo = [] ∧
    (∀ e, some e ∈ (poll s).snd.allocator.endpoints_in → e.configured = false) ∧
    (∀ e, some e ∈ (poll s).snd.allocator.endpoints_out → e.configured = false) := by
  rw [poll_of_usbrst s h]
  rcases he : s.core.gintsts.enumdne with _ | _
  · simp only [Bool.false_eq_true, if_false]
    rcases hw : s.core.gintsts.wkupint with _ | _
    · simp only [Bool.false_eq_true, if_false]
      rcases hs : s.core.gintsts.usbsusp with _ | _
      · simp only [Bool.false_eq_true, if_false]
        refine ⟨?_, ?_, ?_, ?_, ?_⟩
        · constructor
          · intro hr
            exact absurd hr (pollData_fst_ne_reset _ _)
          · intro hr
            exact hr.elim
        · rw [pollData_snd_gintsts]
          rfl
        · exact pollData_snd_rxFifo_nil _ _ (handleReset_rxFifo s)
        · intro e hme
          rw [pollData_snd_endpoints_in] at hme
          exact handleReset_in_deconfigured s e hme
        · intro e hme
          rcases pollData_snd_out_configured _ _ e hme with ⟨e0, he0, hc⟩
          rw [hc]
          exact handleReset_out_deconfigured s e0 he0
      · simp only [if_true]
        refine ⟨?_, rfl, rfl, ?_, ?_⟩
        · simp
        · exact handleReset_in_deconfigured s
        · exact handleReset_out_deconfigured s
    · simp only [if_true]
      refine ⟨?_, rfl, rfl, ?_, ?_⟩
      · simp
      · exact handleReset_in_deconfigured s
      · exact handleReset_out_deconfigured s
  · simp only [if_true]
    refine ⟨?_, rfl, rfl, ?_, ?_⟩
    · simp
    · exact handleReset_in_deconfigured s
    · exact handleReset_out_deconfigured s

/-- State with only the reset-status bit set: no endpoints allocated, empty
receive FIFO, no latched endpoint interrupts. -/
def sOnlyReset : UsbBusState :=
  { allocator := EndpointAllocator.new 320
    core := { coreId := 0x00001200
              gintsts := { wkupint := false, usbsusp := false, enumdne := false,
                           usbrst := true, iepint := false, rxflvl := false }
              rxFifo := []
              diepint_xfrc := [false, false, false, false]
              dieptsiz_pktcnt := [0, 0, 0, 0]
              daintmsk := 0xffffffff
              txFlushLog := []
              rearmLog := [] } }

/-- **C1** counterexample: with only the reset-status bit set `poll` returns
`None`, not the `Reset` event the claim promises (the `Reset` report is tied
to the enumeration-done bit instead). -/
theorem claim_C1_counterexample :
    sOnlyReset.core.gintsts.usbrst = true ∧
    (poll sOnlyReset).fst = PollResult.pollNone ∧
    (poll sOnlyReset).fst ≠ PollResult.reset := by
  refine ⟨rfl, rfl, ?_⟩
  decide

/-- **C1** witness: the amended claim evaluated on the only-reset state. -/
theorem claim_C1_witness :
    ((poll sOnlyReset).fst = PollResult.reset ↔ sOnlyReset.core.gintsts.enumdne = true) ∧
    (poll sOnlyReset).snd.core.gintsts.usbrst = false ∧
    (poll sOnlyReset).snd.core.rxFifo = [] ∧
    (∀ e, some e ∈ (poll sOnlyReset).snd.allocator.endpoints_in → e.configured = false) ∧
    (∀ e, some e ∈ (poll sOnlyReset).snd.allocator.endpoints_out → e.configured = false) :=
  claim_C1_reset_behaviour sOnlyReset rfl

/-- **C2** (amended): a `poll` call observing an OUT-received status entry
for an endpoint whose software buffer is not Empty leaves the FIFO status
entry unpopped (backpressure), but — contrary to the original claim — it
does report that endpoint's bit in the Data event's OUT mask (the first-pass
`ep_out |= 1 << epnum` runs before the buffer state is consulted). -/
theorem claim_C2_backpressure (s : UsbBusState) (e : GrxEntry) (ep : EndpointOut)
    (hrst : s.core.gintsts.usbrst = false) (henum : s.core.gintsts.enumdne = false)
    (hwk : s.core.gintsts.wkupint = false) (hsus : s.core.gintsts.usbsusp = false)
    (hrx : s.core.gintsts.rxflvl = true)
    (hhead : s.core.rxFifo.headD ⟨0, 0, 0⟩ = e) (hsts : e.pktsts = 2)
    (hslot : s.allocator.endpoints_out.getD e.epnum none = some ep)
    (hbuf : ep.bufState ≠ EndpointBufferState.empty) :
    (poll s).snd.core.rxFifo = s.core.rxFifo ∧
    (poll s).fst.isData = true ∧
    (poll s).fst.outMask.testBit e.epnum = true :=
  poll_out_received_reported s e hrst henum hwk hsus hrx hhead hsts
    (rxFillCheck_nonempty s e ep hslot hbuf)

/-- A bulk OUT endpoint number 1 whose software buffer holds undrained OUT
data. -/
def epOutBusy : EndpointOut :=
  { descr := { address := ⟨1, UsbDirection.dirOut⟩, ep_type := EndpointType.bulk,
               max_packet_size := 64, interval := 0 }
    bufState := EndpointBufferState.dataOut
    configured := true }

/-- State in which the receive FIFO holds an OUT-received entry for endpoint
1 while endpoint 1's buffer is non-Empty. -/
def sOutBusy : UsbBusState :=
  { allocator := { EndpointAllocator.new 320 with
      bitmap_out := 2
      endpoints_out := [none, some epOutBusy, none, none] }
    core := { coreId := 0x00001200
              gintsts := { wkupint := false, usbsusp := false, enumdne := false,
                           usbrst := false, iepint := false, rxflvl := true }
              rxFifo := [⟨1, 8, 2⟩]
              diepint_xfrc := [false, false, false, false]
              dieptsiz_pktcnt := [0, 0, 0, 0]
              daintmsk := 0
              txFlushLog := []
              rearmLog := [] } }

/-- **C2** counterexample: on the busy-endpoint state, the FIFO entry stays
unpopped as claimed, but bit 1 *is* set in the returned OUT mask — the
original claim's "does not report that endpoint's bit" is false. -/
theorem claim_C2_counterexample :
    sOutBusy.allocator.endpoints_out.getD 1 none = some epOutBusy ∧
    epOutBusy.bufState ≠ EndpointBufferState.empty ∧
    sOutBusy.core.rxFifo.headD ⟨0, 0, 0⟩ = ⟨1, 8, 2⟩ ∧
    (poll sOutBusy).snd.core.rxFifo = sOutBusy.core.rxFifo ∧
    (poll sOutBusy).fst.outMask.testBit 1 = true := by
  refine ⟨rfl, ?_, rfl, rfl, ?_⟩ <;> decide

/-- **C2** witness: the amended claim evaluated on the busy-endpoint
state. -/
theorem claim_C2_witness :
    (poll sOutBusy).snd.core.rxFifo = sOutBusy.core.rxFifo ∧
    (poll sOutBusy).fst.isData = true ∧
    (poll sOutBusy).fst.outMask.testBit 1 = true :=
  claim_C2_backpressure sOutBusy ⟨1, 8, 2⟩ epOutBusy rfl rfl rfl rfl rfl rfl rfl rfl
    (by decide)

/-- **C7**: a `poll` call with the IN-endpoint-interrupt bit set, endpoint
`N`'s transfer-complete bit latched, no other pending status and all OUT
buffers Empty returns a Data event whose IN-complete mask is exactly bit
`N`, and clears the hardware latch. -/
theorem claim_C7_in_complete (s : UsbBusState) (N : Nat) (epN : EndpointIn)
    (hrst : s.core.gintsts.usbrst = false) (henum : s.core.gintsts.enumdne = false)
    (hwk : s.core.gintsts.wkupint = false) (hsus : s.core.gintsts.usbsusp = false)
    (hrx : s.core.gintsts.rxflvl = false) (hiep : s.core.gintsts.iepint = true)
    (hmem : some epN ∈ s.allocator.endpoints_in)
    (hidx : epN.address.index = N)
    (hlat : s.core.diepint_xfrc.getD N false = true)
    (hoth : ∀ e, some e ∈ s.allocator.endpoints_in → e.address.index ≠ N →
        s.core.diepint_xfrc.getD e.address.index false = false)
    (hout : ∀ e, some e ∈ s.allocator.endpoints_out →
        e.bufState = EndpointBufferState.empty) :
    (poll s).fst = PollResult.data 0 ((1 : Nat) <<< N) 0 ∧
    (poll s).snd.core.diepint_xfrc.getD N false = false := by
  have hNlen : N < s.core.diepint_xfrc.length := by
    refine lt_length_of_getD_ne_default _ N false ?_
    rw [hlat]
    exact Bool.noConfusion
  have hscan : scanInXfrc s.core.diepint_xfrc 0 s.allocator.endpoints_in
      = (0 ||| ((1 : Nat) <<< N), s.core.diepint_xfrc.set N false) :=
    scanInXfrc_single _ 0 N _ epN hmem hidx hlat hoth
  have hmask : outBufferMasks s.allocator.endpoints_out 0 0 = (0, 0) :=
    outBufferMasks_allEmpty _ 0 0 hout
  rw [poll_data_path s hrst henum hwk hsus]
  unfold pollData
  simp only [hrx, hiep, Bool.false_eq_true, if_false, if_true, iepPass, hscan,
    Nat.zero_or]
  simp only [hmask]
  have hne : ((1 : Nat) <<< N) ||| 0 ||| 0 ≠ 0 := by
    rw [Nat.or_zero, Nat.or_zero]
    exact one_shiftLeft_ne_zero N
  rw [mkResult_fst_of_ne_zero _ _ _ _ hne, mkResult_snd]
  refine ⟨rfl, ?_⟩
  exact listGetD_set_self _ N false false hNlen

/-- A bulk IN endpoint number 1. -/
def epInOne : EndpointIn :=
  { descr := { address := ⟨1, UsbDirection.dirIn⟩, ep_type := EndpointType.bulk,
               max_packet_size := 64, interval := 0 }
    configured := true }

/-- State in which only IN endpoint 1's transfer-complete latch is pending. -/
def sInComplete : UsbBusState :=
  { allocator := { EndpointAllocator.new 320 with
      bitmap_in := 2
      endpoints_in := [none, some epInOne, none, none] }
    core := { coreId := 0x00001200
              gintsts := { wkupint := false, usbsusp := false, enumdne := false,
                           usbrst := false, iepint := true, rxflvl := false }
              rxFifo := []
              diepint_xfrc := [false, true, false, false]
              dieptsiz_pktcnt := [0, 0, 0, 0]
              daintmsk := 0
              txFlushLog := []
              rearmLog := [] } }

/-- **C7** witness: the claim evaluated with endpoint 1's latch pending. -/
theorem claim_C7_witness :
    (poll sInComplete).fst = PollResult.data 0 ((1 : Nat) <<< 1) 0 ∧
    (poll sInComplete).snd.core.diepint_xfrc.getD 1 false = false :=
  claim_C7_in_complete sInComplete 1 epInOne rfl rfl rfl rfl rfl rfl
    (by decide) rfl rfl
    (by
      intro e he hne
      simp only [sInComplete, EndpointAllocator.new, List.mem_cons,
        List.not_mem_nil, or_false] at he
      rcases he with he | he | he | he
      · exact Option.noConfusion he
      · rcases Option.some.inj he with rfl
        exact (hne rfl).elim
      · exact Option.noConfusion he
      · exact Option.noConfusion he)
    (by
      intro e he
      simp [sInComplete, EndpointAllocator.new] at he)

/-- **C10**: a `poll` call observing an OUT-received status entry targeting
an endpoint number with no allocated OUT endpoint still sets that number's
bit in the returned OUT mask but never pops the FIFO status entry. -/
theorem claim_C10_unallocated (s : UsbBusState) (e : GrxEntry)
    (hrst : s.core.gintsts.usbrst = false) (henum : s.core.gintsts.enumdne = false)
    (hwk : s.core.gintsts.wkupint = false) (hsus : s.core.gintsts.usbsusp = false)
    (hrx : s.core.gintsts.rxflvl = true)
    (hhead : s.core.rxFifo.headD ⟨0, 0, 0⟩ = e) (hsts : e.pktsts = 2)
    (hn : e.epnum < 4)
    (hslot : s.allocator.endpoints_out.getD e.epnum none = none) :
    (poll s).snd.core.rxFifo = s.core.rxFifo ∧
    (poll s).fst.isData = true ∧
    (poll s).fst.outMask.testBit e.epnum = true :=
  poll_out_received_reported s e hrst henum hwk hsus hrx hhead hsts
    (rxFillCheck_none s e hslot)

/-- State in which the receive FIFO holds an OUT-received entry for the
unallocated endpoint number 2. -/
def sOutUnallocated : UsbBusState :=
  { allocator := EndpointAllocator.new 320
    core := { coreId := 0x00001200
              gintsts := { wkupint := false, usbsusp := false, enumdne := false,
                           usbrst := false, iepint := false, rxflvl := true }
              rxFifo := [⟨2, 8, 2⟩]
              diepint_xfrc := [false, false, false, false]
              dieptsiz_pktcnt := [0, 0, 0, 0]
              daintmsk := 0
              txFlushLog := []
              rearmLog := [] } }

/-- **C10** witness: the claim evaluated on the unallocated-endpoint
state. -/
theorem claim_C10_witness :
    (poll sOutUnallocated).snd.core.rxFifo = sOutUnallocated.core.rxFifo ∧
    (poll sOutUnallocated).fst.isData = true ∧
    (poll sOutUnallocated).fst.outMask.testBit 2 = true :=
  claim_C10_unallocated sOutUnallocated ⟨2, 8, 2⟩ rfl rfl rfl rfl rfl rfl rfl
    (by decide) rfl

/-! ### Claim theorems about the endpoint allocator -/

/-- Facts about every successful `alloc_number` call: the claimed number is
in range, was free, and its bit is set in the returned bitmap. -/
theorem alloc_number_ok_facts (b : Nat) (numopt : Option Nat) (bm n : Nat)
    (h : alloc_number b numopt = Except.ok (bm, n)) :
    n < 4 ∧ b.testBit n = false ∧ bm = b ||| (1 <<< n) := by
  cases numopt with
  | some k =>
      rw [alloc_number_some] at h
      split_ifs at h with h4 hb
      · rcases Prod.mk.injEq .. ▸ Except.ok.inj h with ⟨h1, h2⟩
        rcases h1
        rcases h2
        exact ⟨Nat.lt_of_not_le h4, hb, rfl⟩
  | none =>
      rcases alloc_number_none_cases b with ⟨h1, hok⟩ | ⟨h1, h2, hok⟩ |
        ⟨h1, h2, h3, hok⟩ | ⟨h1, h2, h3, herr⟩
      · rw [hok] at h
        rcases Prod.mk.injEq .. ▸ Except.ok.inj h with ⟨hbm, hn⟩
        rcases hbm
        rcases hn
        exact ⟨by decide, h1, rfl⟩
      · rw [hok] at h
        rcases Prod.mk.injEq .. ▸ Except.ok.inj h with ⟨hbm, hn⟩
        rcases hbm
        rcases hn
        exact ⟨by decide, h2, rfl⟩
      · rw [hok] at h
        rcases Prod.mk.injEq .. ▸ Except.ok.inj h with ⟨hbm, hn⟩
        rcases hbm
        rcases hn
        exact ⟨by decide, h3, rfl⟩
      · rw [herr] at h
        exact Except.noConfusion h

/-- The receive-buffer allocation only ever fails with the memory-overflow
error, leaving the memory allocator unchanged. -/
theorem allocate_rx_buffer_error (m : EndpointMemoryAllocator) (size : Nat)
    (e : UsbError) (m' : EndpointMemoryAllocator)
    (h : m.allocate_rx_buffer size = (Except.error e, m')) :
    e = UsbError.endpointMemoryOverflow ∧ m' = m := by
  unfold EndpointMemoryAllocator.allocate_rx_buffer at h
  split_ifs at h
  · exact absurd (congrArg Prod.fst h) (by simp)
  · rcases Prod.mk.injEq .. ▸ h with ⟨h1, h2⟩
    exact ⟨(Except.error.inj h1).symm, h2.symm⟩

/-- A successful `alloc_ep` returns exactly the number claimed by
`alloc_number`, tagged with the requested direction. -/
theorem alloc_ep_fst_ok_addr (a : EndpointAllocator) (dir : UsbDirection)
    (addrReq : Option EndpointAddress) (t : EndpointType) (mps iv : Nat)
    (bm n : Nat) (addr : EndpointAddress)
    (h : alloc_number (a.bitmapFor dir) (addrReq.map (·.index)) = Except.ok (bm, n))
    (hfst : (a.alloc_ep dir addrReq t mps iv).fst = Except.ok addr) :
    addr = ⟨n, dir⟩ := by
  cases dir with
  | dirIn =>
      rw [alloc_ep_in_ok a addrReq t mps iv bm n h] at hfst
      exact (Except.ok.inj hfst).symm
  | dirOut =>
      rcases hmem : a.memory_allocator.allocate_rx_buffer mps with ⟨r, m'⟩
      cases r with
      | ok u =>
          cases u
          rw [alloc_ep_out_ok a addrReq t mps iv bm n m' h hmem] at hfst
          exact (Except.ok.inj hfst).symm
      | error e =>
          rw [alloc_ep_out_mem_err a addrReq t mps iv bm n e m' h hmem] at hfst
          exact Except.noConfusion hfst

/-- After a successful `alloc_number`, the requested direction's bitmap of
the post-`alloc_ep` state is the updated bitmap, whatever the memory
allocator did. -/
theorem alloc_ep_snd_bitmap (a : EndpointAllocator) (dir : UsbDirection)
    (addrReq : Option EndpointAddress) (t : EndpointType) (mps iv : Nat) (bm n : Nat)
    (h : alloc_number (a.bitmapFor dir) (addrReq.map (·.index)) = Except.ok (bm, n)) :
    (a.alloc_ep dir addrReq t mps iv).snd.bitmapFor dir = bm := by
  cases dir with
  | dirIn =>
      rw [alloc_ep_in_ok a addrReq t mps iv bm n h]
      rfl
  | dirOut =>
      rcases hmem : a.memory_allocator.allocate_rx_buffer mps with ⟨r, m'⟩
      cases r with
      | ok u =>
          cases u
          rw [alloc_ep_out_ok a addrReq t mps iv bm n m' h hmem]
          rfl
      | error e =>
          rw [alloc_ep_out_mem_err a addrReq t mps iv bm n e m' h hmem]
          rfl

/-- **C5**: automatic endpoint-number allocation scans numbers 1..3 in
ascending order and hands out the first free one — never number 0 — and
when all of 1..3 are occupied it fails with `EndpointOverflow` leaving the
allocator untouched. -/
theorem claim_C5_auto_alloc (a : EndpointAllocator) (dir : UsbDirection)
    (t : EndpointType) (mps iv : Nat) :
    (∀ addr, (a.alloc_ep dir none t mps iv).fst = Except.ok addr →
        addr.direction = dir ∧ addr.index ≠ 0 ∧ addr.index < 4 ∧
        (a.bitmapFor dir).testBit addr.index = false ∧
        ∀ m, 1 ≤ m → m < addr.index → (a.bitmapFor dir).testBit m = true) ∧
    ((a.bitmapFor dir).testBit 1 = true → (a.bitmapFor dir).testBit 2 = true →
      (a.bitmapFor dir).testBit 3 = true →
      a.alloc_ep dir none t mps iv = (Except.error UsbError.endpointOverflow, a)) := by
  constructor
  · intro addr hfst
    rcases alloc_number_none_cases (a.bitmapFor dir) with ⟨hb1, hok⟩ | ⟨hb1, hb2, hok⟩ |
      ⟨hb1, hb2, hb3, hok⟩ | ⟨hb1, hb2, hb3, herr⟩
    · rcases alloc_ep_fst_ok_addr a dir none t mps iv _ 1 addr hok hfst with rfl
      exact ⟨rfl, by norm_num, by norm_num, hb1,
        fun m h1m hm1 => absurd (Nat.lt_of_lt_of_le hm1 h1m) (Nat.lt_irrefl m)⟩
    · rcases alloc_ep_fst_ok_addr a dir none t mps iv _ 2 addr hok hfst with rfl
      refine ⟨rfl, by norm_num, by norm_num, hb2, ?_⟩
      intro m h1m hm2
      interval_cases m
      exact hb1
    · rcases alloc_ep_fst_ok_addr a dir none t mps iv _ 3 addr hok hfst with rfl
      refine ⟨rfl, by norm_num, by norm_num, hb3, ?_⟩
      intro m h1m hm3
      interval_cases m
      · exact hb1
      · exact hb2
    · rw [alloc_ep_of_alloc_number_error a dir none t mps iv _ herr] at hfst
      exact Except.noConfusion hfst
  · intro h1 h2 h3
    rcases alloc_number_none_cases (a.bitmapFor dir) with ⟨hb1, hok⟩ | ⟨hb1, hb2, hok⟩ |
      ⟨hb1, hb2, hb3, hok⟩ | ⟨hb1, hb2, hb3, herr⟩
    · rw [h1] at hb1
      exact Bool.noConfusion hb1
    · rw [h2] at hb2
      exact Bool.noConfusion hb2
    · rw [h3] at hb3
      exact Bool.noConfusion hb3
    · exact alloc_ep_of_alloc_number_error a dir none t mps iv _ herr

/-- An allocator whose IN direction has endpoints 1..3 occupied. -/
def aFullIn : EndpointAllocator :=
  { EndpointAllocator.new 320 with bitmap_in := 14 }

/-- **C5** witness: with IN numbers 1..3 occupied, automatic allocation
fails with `EndpointOverflow` and mutates nothing. -/
theorem claim_C5_witness :
    aFullIn.alloc_ep UsbDirection.dirIn none EndpointType.bulk 64 0 =
      (Except.error UsbError.endpointOverflow, aFullIn) :=
  (claim_C5_auto_alloc aFullIn UsbDirection.dirIn EndpointType.bulk 64 0).2
    (by decide) (by decide) (by decide)

/-- **C6** (amended): an `alloc_ep` call requesting a specific number fails
with `InvalidEndpoint` exactly when the number is out of range or occupied;
otherwise the bit becomes set and any successfully returned address carries
that number — but when the memory allocator fails, the call returns the
memory error instead of the number (with the bit still set). -/
theorem claim_C6_explicit_alloc (a : EndpointAllocator) (dir reqDir : UsbDirection)
    (n : Nat) (t : EndpointType) (mps iv : Nat) :
    ((a.alloc_ep dir (some ⟨n, reqDir⟩) t mps iv).fst =
        Except.error UsbError.invalidEndpoint ↔
      (4 ≤ n ∨ (a.bitmapFor dir).testBit n = true)) ∧
    (n < 4 → (a.bitmapFor dir).testBit n = false →
      ((a.alloc_ep dir (some ⟨n, reqDir⟩) t mps iv).snd.bitmapFor dir).testBit n = true ∧
      ∀ addr, (a.alloc_ep dir (some ⟨n, reqDir⟩) t mps iv).fst = Except.ok addr →
        addr = ⟨n, dir⟩) := by
  have hmap : (some (⟨n, reqDir⟩ : EndpointAddress)).map (·.index) = some n := rfl
  by_cases h4 : 4 ≤ n
  · have herr : alloc_number (a.bitmapFor dir) (some n) =
        Except.error UsbError.invalidEndpoint := by
      rw [alloc_number_some, if_pos h4]
    constructor
    · rw [alloc_ep_of_alloc_number_error a dir (some ⟨n, reqDir⟩) t mps iv _ (hmap ▸ herr)]
      simp [h4]
    · intro hn4
      exact absurd h4 (Nat.not_le_of_lt hn4)
  · by_cases hb : (a.bitmapFor dir).testBit n = true
    · have herr : alloc_number (a.bitmapFor dir) (some n) =
          Except.error UsbError.invalidEndpoint := by
        rw [alloc_number_some, if_neg h4, if_neg (by rw [hb]; exact Bool.noConfusion)]
      constructor
      · rw [alloc_ep_of_alloc_number_error a dir (some ⟨n, reqDir⟩) t mps iv _ (hmap ▸ herr)]
        simp [hb]
      · intro _ hbf
        rw [hb] at hbf
        exact Bool.noConfusion hbf
    · have hbf : (a.bitmapFor dir).testBit n = false := by
        revert hb
        cases (a.bitmapFor dir).testBit n <;> simp
      have hok : alloc_number (a.bitmapFor dir) (some n) =
          Except.ok ((a.bitmapFor dir) ||| (1 <<< n), n) := by
        rw [alloc_number_some, if_neg h4, if_pos hbf]
      have hok' : alloc_number (a.bitmapFor dir)
          ((some (⟨n, reqDir⟩ : EndpointAddress)).map (·.index)) =
          Except.ok ((a.bitmapFor dir) ||| (1 <<< n), n) := hmap ▸ hok
      constructor
      · constructor
        · intro hfst
          exfalso
          cases dir with
          | dirIn =>
              rw [alloc_ep_in_ok a _ t mps iv _ n hok'] at hfst
              exact Except.noConfusion hfst
          | dirOut =>
              rcases hmem : a.memory_allocator.allocate_rx_buffer mps with ⟨r, m'⟩
              cases r with
              | ok u =>
                  cases u
                  rw [alloc_ep_out_ok a _ t mps iv _ n m' hok' hmem] at hfst
                  exact Except.noConfusion hfst
              | error e =>
                  rcases allocate_rx_buffer_error _ _ _ _ hmem with ⟨rfl, _⟩
                  rw [alloc_ep_out_mem_err a _ t mps iv _ n _ m' hok' hmem] at hfst
                  exact absurd (Except.error.inj hfst) (by decide)
        · intro hcase
          rcases hcase with h4' | hb'
          · exact absurd h4' h4
          · rw [hbf] at hb'
            exact Bool.noConfusion hb'
      · intro _ _
        constructor
        · rw [alloc_ep_snd_bitmap a dir _ t mps iv _ n hok']
          rw [testBit_or_one_shiftLeft]
          simp
        · intro addr hfst
          exact alloc_ep_fst_ok_addr a dir _ t mps iv _ n addr hok' hfst

/-- An allocator with no endpoint memory at all. -/
def aNoMemory : EndpointAllocator := EndpointAllocator.new 0

/-- **C6** counterexample: requesting the free, in-range OUT number 1 with
no endpoint memory left does not return that number — the memory error
comes back instead (while the bitmap bit was still claimed), so "otherwise
the bit is set and that number is returned" fails as stated. -/
theorem claim_C6_counterexample :
    ¬ (4 ≤ 1 ∨ (aNoMemory.bitmapFor UsbDirection.dirOut).testBit 1 = true) ∧
    (aNoMemory.alloc_ep UsbDirection.dirOut (some ⟨1, UsbDirection.dirOut⟩)
        EndpointType.bulk 64 0).fst = Except.error UsbError.endpointMemoryOverflow ∧
    (aNoMemory.alloc_ep UsbDirection.dirOut (some ⟨1, UsbDirection.dirOut⟩)
        EndpointType.bulk 64 0).snd.bitmap_out.testBit 1 = true := by
  refine ⟨by decide, rfl, by decide⟩

/-- **C6** witness: the amended claim evaluated at a fresh allocator and the
free number 2. -/
theorem claim_C6_witness :
    (((EndpointAllocator.new 320).alloc_ep UsbDirection.dirOut
        (some ⟨2, UsbDirection.dirOut⟩) EndpointType.bulk 64 0).fst =
      Except.error UsbError.invalidEndpoint ↔
      (4 ≤ 2 ∨ ((EndpointAllocator.new 320).bitmapFor UsbDirection.dirOut).testBit 2
        = true)) ∧
    (((EndpointAllocator.new 320).alloc_ep UsbDirection.dirOut
        (some ⟨2, UsbDirection.dirOut⟩) EndpointType.bulk 64 0).snd.bitmapFor
        UsbDirection.dirOut).testBit 2 = true ∧
    (∀ addr, ((EndpointAllocator.new 320).alloc_ep UsbDirection.dirOut
        (some ⟨2, UsbDirection.dirOut⟩) EndpointType.bulk 64 0).fst = Except.ok addr →
      addr = ⟨2, UsbDirection.dirOut⟩) :=
  ⟨(claim_C6_explicit_alloc (EndpointAllocator.new 320) UsbDirection.dirOut
      UsbDirection.dirOut 2 EndpointType.bulk 64 0).1,
   (claim_C6_explicit_alloc (EndpointAllocator.new 320) UsbDirection.dirOut
      UsbDirection.dirOut 2 EndpointType.bulk 64 0).2 (by decide) (by decide)⟩

/-! ### The occupancy invariant over sequences of `alloc_ep` calls -/

/-- One `alloc_ep` request as issued by the framework. -/
structure AllocCall where
  ep_dir : UsbDirection
  ep_addr : Option EndpointAddress
  ep_type : EndpointType
  max_packet_size : Nat
  interval : Nat
deriving DecidableEq, Repr

/-- Run a sequence of `alloc_ep` calls, collecting each call's result. -/
def runCalls (a : EndpointAllocator) :
    List AllocCall → EndpointAllocator × List (Except UsbError EndpointAddress)
  | [] => (a, [])
  | c :: cs =>
      let r := a.alloc_ep c.ep_dir c.ep_addr c.ep_type c.max_packet_size c.interval
      let rest := runCalls r.snd cs
      (rest.fst, r.fst :: rest.snd)

/-- Both slot arrays have the hardware endpoint count of entries. -/
def slotsWf (a : EndpointAllocator) : Prop :=
  a.endpoints_in.length = 4 ∧ a.endpoints_out.length = 4

/-- The spec's occupancy invariant: bit `n` set in a direction's bitmap iff
slot `n` of that direction's array holds an endpoint object. -/
def occupancyInv (a : EndpointAllocator) : Prop :=
  slotsWf a ∧
  (∀ n, n < 4 →
    (a.bitmap_in.testBit n = true ↔ (a.endpoints_in.getD n none).isSome = true)) ∧
  (∀ n, n < 4 →
    (a.bitmap_out.testBit n = true ↔ (a.endpoints_out.getD n none).isSome = true))

/-- The one-sided invariant that survives memory-allocation failures: an
occupied slot always has its bitmap bit set. -/
def slotImpliesBit (a : EndpointAllocator) : Prop :=
  (∀ n, n < 4 → (a.endpoints_in.getD n none).isSome = true →
    a.bitmap_in.testBit n = true) ∧
  (∀ n, n < 4 → (a.endpoints_out.getD n none).isSome = true →
    a.bitmap_out.testBit n = true)

theorem testBit_or_shift_self (b n : Nat) : (b ||| (1 <<< n)).testBit n = true := by
  rw [testBit_or_one_shiftLeft]
  simp

theorem testBit_or_shift_of_true {b : Nat} (n : Nat) {m : Nat} (h : b.testBit m = true) :
    (b ||| (1 <<< n)).testBit m = true := by
  rw [testBit_or_one_shiftLeft, h]
  simp

theorem testBit_or_shift_of_ne {b n m : Nat} (h : n ≠ m) :
    (b ||| (1 <<< n)).testBit m = b.testBit m := by
  rw [testBit_or_one_shiftLeft]
  simp [h]

/-- One `alloc_ep` call preserves the one-sided invariant, whatever its
outcome (a memory failure only adds a bitmap bit). -/
theorem alloc_ep_step_weak (a : EndpointAllocator) (c : AllocCall)
    (hw : slotImpliesBit a) :
    slotImpliesBit
      (a.alloc_ep c.ep_dir c.ep_addr c.ep_type c.max_packet_size c.interval).snd := by
  rcases han : alloc_number (a.bitmapFor c.ep_dir) (c.ep_addr.map (·.index)) with e | p
  · rw [alloc_ep_of_alloc_number_error a c.ep_dir c.ep_addr c.ep_type
      c.max_packet_size c.interval e han]
    exact hw
  · rcases p with ⟨bm, n⟩
    rcases alloc_number_ok_facts _ _ _ _ han with ⟨hn4, hfree, rfl⟩
    rcases hdir : c.ep_dir with _ | _
    · rw [hdir] at han
      rw [alloc_ep_in_ok a c.ep_addr c.ep_type c.max_packet_size c.interval _ n han]
      constructor
      · intro m hm hsome
        by_cases hmn : m = n
        · rw [hmn]
          exact testBit_or_shift_self _ n
        · rw [listGetD_set_ne _ m n _ _ hmn] at hsome
          exact testBit_or_shift_of_true n (hw.1 m hm hsome)
      · intro m hm hsome
        exact hw.2 m hm hsome
    · rw [hdir] at han
      rcases hmem : a.memory_allocator.allocate_rx_buffer c.max_packet_size with ⟨r, m'⟩
      cases r with
      | ok u =>
          cases u
          rw [alloc_ep_out_ok a c.ep_addr c.ep_type c.max_packet_size c.interval
            _ n m' han hmem]
          constructor
          · intro m hm hsome
            exact hw.1 m hm hsome
          · intro m hm hsome
            by_cases hmn : m = n
            · rw [hmn]
              exact testBit_or_shift_self _ n
            · rw [listGetD_set_ne _ m n _ _ hmn] at hsome
              exact testBit_or_shift_of_true n (hw.2 m hm hsome)
      | error e =>
          rw [alloc_ep_out_mem_err a c.ep_addr c.ep_type c.max_packet_size c.interval
            _ n e m' han hmem]
          constructor
          · intro m hm hsome
            exact hw.1 m hm hsome
          · intro m hm hsome
            exact testBit_or_shift_of_true n (hw.2 m hm hsome)

/-- One `alloc_ep` call that does not fail with the memory-overflow error
preserves the full occupancy invariant. -/
theorem alloc_ep_step_inv (a : EndpointAllocator) (c : AllocCall)
    (ha : occupancyInv a)
    (hne : (a.alloc_ep c.ep_dir c.ep_addr c.ep_type c.max_packet_size c.interval).fst ≠
      Except.error UsbError.endpointMemoryOverflow) :
    occupancyInv
      (a.alloc_ep c.ep_dir c.ep_addr c.ep_type c.max_packet_size c.interval).snd := by
  rcases ha with ⟨⟨hlin, hlout⟩, hin, hout⟩
  rcases han : alloc_number (a.bitmapFor c.ep_dir) (c.ep_addr.map (·.index)) with e | p
  · rw [alloc_ep_of_alloc_number_error a c.ep_dir c.ep_addr c.ep_type
      c.max_packet_size c.interval e han]
    exact ⟨⟨hlin, hlout⟩, hin, hout⟩
  · rcases p with ⟨bm, n⟩
    rcases alloc_number_ok_facts _ _ _ _ han with ⟨hn4, hfree, rfl⟩
    rcases hdir : c.ep_dir with _ | _
    · rw [hdir] at han
      rw [alloc_ep_in_ok a c.ep_addr c.ep_type c.max_packet_size c.interval _ n han]
      refine ⟨⟨by simpa using hlin, hlout⟩, ?_, hout⟩
      intro m hm
      by_cases hmn : m = n
      · rw [hmn, listGetD_set_self _ n _ none (by rw [hlin]; exact hmn ▸ hm)]
        simp [testBit_or_shift_self]
      · rw [listGetD_set_ne _ m n _ _ hmn, testBit_or_shift_of_ne (fun h => hmn h.symm)]
        exact hin m hm
    · rw [hdir] at han
      rcases hmem : a.memory_allocator.allocate_rx_buffer c.max_packet_size with ⟨r, m'⟩
      cases r with
      | ok u =>
          cases u
          rw [alloc_ep_out_ok a c.ep_addr c.ep_type c.max_packet_size c.interval
            _ n m' han hmem]
          refine ⟨⟨hlin, by simpa using hlout⟩, hin, ?_⟩
          intro m hm
          by_cases hmn : m = n
          · rw [hmn, listGetD_set_self _ n _ none (by rw [hlout]; exact hmn ▸ hm)]
            simp [testBit_or_shift_self]
          · rw [listGetD_set_ne _ m n _ _ hmn,
              testBit_or_shift_of_ne (fun h => hmn h.symm)]
            exact hout m hm
      | error e =>
          exfalso
          rcases allocate_rx_buffer_error _ _ _ _ hmem with ⟨rfl, _⟩
          rw [hdir] at hne
          rw [alloc_ep_out_mem_err a c.ep_addr c.ep_type c.max_packet_size c.interval
            _ n _ m' han hmem] at hne
          exact hne rfl

/-- **C4** (amended): over any sequence of `alloc_ep` calls, an occupied
slot always has its bitmap bit set; the full "bit set ⇔ slot occupied"
equivalence holds provided no call of the sequence failed with the memory
allocator's overflow error (such a failure leaves the claimed bit set with
the slot still empty — the asymmetry §9 of the spec documents). -/
theorem claim_C4_bitmap_invariant (a : EndpointAllocator) (calls : List AllocCall) :
    (slotImpliesBit a → slotImpliesBit (runCalls a calls).fst) ∧
    (occupancyInv a →
      (∀ r ∈ (runCalls a calls).snd, r ≠ Except.error UsbError.endpointMemoryOverflow) →
      occupancyInv (runCalls a calls).fst) := by
  induction calls generalizing a with
  | nil => exact ⟨id, fun h _ => h⟩
  | cons c cs ih =>
      simp only [runCalls]
      constructor
      · intro hw
        exact (ih _).1 (alloc_ep_step_weak a c hw)
      · intro hinv hres
        refine (ih _).2 (alloc_ep_step_inv a c hinv ?_) ?_
        · exact hres _ (List.mem_cons_self _ _)
        · intro r hr
          exact hres r (List.mem_cons_of_mem _ hr)

/-- **C4** counterexample: a single auto-numbered OUT allocation against an
allocator with only 4 words of endpoint memory claims bit 1, then fails in
the memory allocator — leaving bit 1 set while slot 1 is empty, violating
the claimed equivalence after a failing call. -/
theorem claim_C4_counterexample :
    (runCalls (EndpointAllocator.new 4)
        [⟨UsbDirection.dirOut, none, EndpointType.bulk, 64, 0⟩]).fst.bitmap_out.testBit 1
      = true ∧
    (runCalls (EndpointAllocator.new 4)
        [⟨UsbDirection.dirOut, none, EndpointType.bulk, 64, 0⟩]).fst.endpoints_out.getD 1
        none = none ∧
    (runCalls (EndpointAllocator.new 4)
        [⟨UsbDirection.dirOut, none, EndpointType.bulk, 64, 0⟩]).snd.headD
        (Except.error UsbError.invalidEndpoint) =
      Except.error UsbError.endpointMemoryOverflow :=
  ⟨by decide, rfl, rfl⟩

/-- **C4** witness: the amended claim evaluated over one successful
IN allocation from a fresh allocator. -/
theorem claim_C4_witness :
    slotImpliesBit (runCalls (EndpointAllocator.new 320)
      [⟨UsbDirection.dirIn, none, EndpointType.bulk, 64, 0⟩]).fst ∧
    occupancyInv (runCalls (EndpointAllocator.new 320)
      [⟨UsbDirection.dirIn, none, EndpointType.bulk, 64, 0⟩]).fst :=
  ⟨(claim_C4_bitmap_invariant (EndpointAllocator.new 320)
      [⟨UsbDirection.dirIn, none, EndpointType.bulk, 64, 0⟩]).1
     (by unfold slotImpliesBit; decide),
   (claim_C4_bitmap_invariant (EndpointAllocator.new 320)
      [⟨UsbDirection.dirIn, none, EndpointType.bulk, 64, 0⟩]).2
     (by unfold occupancyInv slotsWf; decide)
     (by
       intro r hr
       have hv : (runCalls (EndpointAllocator.new 320)
           [⟨UsbDirection.dirIn, none, EndpointType.bulk, 64, 0⟩]).snd =
           [Except.ok ⟨1, UsbDirection.dirIn⟩] := rfl
       rw [hv] at hr
       rcases List.mem_singleton.mp hr with rfl
       simp)⟩

/-! ### Claim theorems about the FIFO layout of `configure_all` -/

theorem fifo_tops_head? (start : Nat) (l : List Nat) :
    (fifo_tops start l).head? = some start := by
  cases l <;> rfl

theorem fifo_tops_ne_nil (start : Nat) (l : List Nat) : fifo_tops start l ≠ [] := by
  cases l <;> simp [fifo_tops]

theorem fifo_tops_chain_le (start : Nat) (l : List Nat) :
    List.Chain' (· ≤ ·) (fifo_tops start l) := by
  induction l generalizing start with
  | nil => simp [fifo_tops]
  | cons x xs ih =>
      rw [fifo_tops]
      refine List.chain'_cons'.mpr ⟨?_, ih (start + x)⟩
      intro y hy
      rw [fifo_tops_head?] at hy
      rw [← Option.some.inj (Option.mem_def.mp hy)]
      exact Nat.le_add_right start x

theorem fifo_tops_chain_lt (start : Nat) (l : List Nat) (h : ∀ x ∈ l, 0 < x) :
    List.Chain' (· < ·) (fifo_tops start l) := by
  induction l generalizing start with
  | nil => simp [fifo_tops]
  | cons x xs ih =>
      rw [fifo_tops]
      refine List.chain'_cons'.mpr
        ⟨?_, ih (start + x) (fun z hz => h z (List.mem_cons_of_mem x hz))⟩
      intro y hy
      rw [fifo_tops_head?] at hy
      rw [← Option.some.inj (Option.mem_def.mp hy)]
      exact Nat.lt_add_of_pos_right (h x (List.mem_cons_self x xs))

theorem fifo_tops_getLast? (start : Nat) (l : List Nat) :
    (fifo_tops start l).getLast? = some (start + l.sum) := by
  induction l generalizing start with
  | nil => simp [fifo_tops]
  | cons x xs ih =>
      rw [fifo_tops]
      rcases hfx : fifo_tops (start + x) xs with _ | ⟨b, t⟩
      · exact absurd hfx (fifo_tops_ne_nil _ _)
      · rw [List.getLast?_cons_cons, ← hfx, ih (start + x), List.sum_cons,
          Nat.add_assoc]

/-- **C3** (amended): the FIFO word offsets `configure_all` computes are
non-decreasing — strictly increasing whenever every transmit FIFO has a
non-zero planned size (an endpoint with no planned transmit FIFO
contributes zero words and repeats the previous offset) — the last offset
is the final `fifo_top`, and the computation aborts (`assert!` fails)
exactly when that final offset exceeds the controller's total FIFO depth. -/
theorem claim_C3_fifo_layout (m : EndpointMemoryAllocator) :
    List.Chain' (· ≤ ·) (configureAllOffsets m) ∧
    ((∀ i, i < 4 → 0 < m.tx_fifo_size_words i) →
      List.Chain' (· < ·) (configureAllOffsets m)) ∧
    (configureAllOffsets m).getLast? = some (configureAllFinal m) ∧
    (configure_all_fifo m = none ↔ FIFO_DEPTH_WORDS < configureAllFinal m) := by
  refine ⟨fifo_tops_chain_le _ _, ?_, ?_, ?_⟩
  · intro hpos
    refine fifo_tops_chain_lt _ _ ?_
    intro x hx
    simp only [List.mem_cons, List.not_mem_nil, or_false] at hx
    rcases hx with rfl | rfl | rfl | rfl
    · exact hpos 0 (by norm_num)
    · exact hpos 1 (by norm_num)
    · exact hpos 2 (by norm_num)
    · exact hpos 3 (by norm_num)
  · rw [configureAllOffsets, fifo_tops_getLast?]
    simp [configureAllFinal, Nat.add_assoc]
  · unfold configure_all_fifo
    split_ifs with h
    · simp [Nat.not_lt_of_le h]
    · simp [Nat.lt_of_not_le h]

/-- The memory allocator reached by allocating only the control IN endpoint
(number 0, max packet 8 bytes) from a fresh allocator. -/
def memControlOnly : EndpointMemoryAllocator :=
  ((EndpointAllocator.new 320).alloc_ep UsbDirection.dirIn
    (some ⟨0, UsbDirection.dirIn⟩) EndpointType.control 8 0).snd.memory_allocator

/-- **C3** counterexample: with only the control IN endpoint allocated, the
unplanned transmit FIFOs 1..3 contribute zero words, so the computed
offsets repeat and are not strictly increasing — even though the layout
fits and no abort happens. -/
theorem claim_C3_counterexample :
    configureAllOffsets memControlOnly = [30, 32, 32, 32, 32] ∧
    ¬ List.Chain' (· < ·) (configureAllOffsets memControlOnly) ∧
    configure_all_fifo memControlOnly ≠ none := by
  refine ⟨rfl, ?_, ?_⟩
  · intro hch
    have h1 : configureAllOffsets memControlOnly = [30, 32, 32, 32, 32] := rfl
    rw [h1, List.chain'_cons, List.chain'_cons] at hch
    exact absurd hch.2.1 (by norm_num)
  · decide

/-- **C3** witness: the strict-increase conjunct evaluated on an allocator
state with all four transmit FIFOs planned. -/
theorem claim_C3_witness :
    (∀ i, i < 4 →
      0 < (EndpointMemoryAllocator.mk 320 16 [2, 16, 16, 16]).tx_fifo_size_words i) ∧
    List.Chain' (· < ·)
      (configureAllOffsets (EndpointMemoryAllocator.mk 320 16 [2, 16, 16, 16])) :=
  ⟨by decide,
   (claim_C3_fifo_layout (EndpointMemoryAllocator.mk 320 16 [2, 16, 16, 16])).2.1
     (by decide)⟩

/-! ### Claim theorems about `write` / `read` / stall dispatch -/

/-- **C8** (amended): `write` and `read` return `InvalidEndpoint` for every
address that is out of range, of the wrong direction, or unallocated;
`set_stalled` is a no-op and `is_stalled` reports stalled only for indices
`≥ 4` — for indices `< 4` both delegate to the `endpoint` module's hardware
stall control regardless of direction or allocation. -/
theorem claim_C8_invalid_dispatch :
    (∀ (a : EndpointAllocator) (addr : EndpointAddress) (bufLen : Nat)
        (r : Except UsbError Nat),
      (addr.is_in = false ∨ 4 ≤ addr.index ∨
          a.endpoints_in.getD addr.index none = none) →
      bus_write a addr bufLen r = Except.error UsbError.invalidEndpoint) ∧
    (∀ (a : EndpointAllocator) (addr : EndpointAddress) (r : Except UsbError Nat),
      (addr.is_out = false ∨ 4 ≤ addr.index ∨
          a.endpoints_out.getD addr.index none = none) →
      bus_read a addr r = Except.error UsbError.invalidEndpoint) ∧
    (∀ (st : StallState) (addr : EndpointAddress) (v : Bool), 4 ≤ addr.index →
      bus_set_stalled st addr v = st ∧ bus_is_stalled st addr = true) ∧
    (∀ (st : StallState) (addr : EndpointAddress) (v : Bool), addr.index < 4 →
      bus_set_stalled st addr v = endpoint_set_stalled st addr v ∧
      bus_is_stalled st addr = endpoint_is_stalled st addr) := by
  refine ⟨?_, ?_, ?_, ?_⟩
  · intro a addr bufLen r h
    unfold bus_write
    rcases h with h | h | h
    · rw [if_pos]
      simp [h]
    · rw [if_pos]
      simp [h]
    · split_ifs with hc
      · rfl
      · rw [h]
  · intro a addr r h
    unfold bus_read
    rcases h with h | h | h
    · rw [if_pos]
      simp [h]
    · rw [if_pos]
      simp [h]
    · split_ifs with hc
      · rfl
      · rw [h]
  · intro st addr v h
    unfold bus_set_stalled bus_is_stalled
    rw [if_pos h, if_pos h]
    exact ⟨rfl, rfl⟩
  · intro st addr v h
    unfold bus_set_stalled bus_is_stalled
    rw [if_neg (Nat.not_le_of_lt h), if_neg (Nat.not_le_of_lt h)]
    exact ⟨rfl, rfl⟩

/-- **C8** counterexample: endpoint 2 has no allocated OUT endpoint and its
hardware stall bit is clear, yet `is_stalled` reports `false` (not the
claimed `true`) and `set_stalled` is not a no-op — both delegate to the
hardware stall control for any index `< 4`. -/
theorem claim_C8_counterexample :
    (EndpointAllocator.new 320).endpoints_out.getD 2 none = none ∧
    bus_is_stalled ⟨0, 0⟩ ⟨2, UsbDirection.dirOut⟩ = false ∧
    bus_set_stalled ⟨0, 0⟩ ⟨2, UsbDirection.dirOut⟩ true ≠ ⟨0, 0⟩ := by
  refine ⟨rfl, rfl, ?_⟩
  decide

/-- **C8** witness: the amended claim evaluated on concrete addresses. -/
theorem claim_C8_witness :
    bus_write (EndpointAllocator.new 320) ⟨1, UsbDirection.dirIn⟩ 8 (Except.ok 8) =
      Except.error UsbError.invalidEndpoint ∧
    bus_read (EndpointAllocator.new 320) ⟨5, UsbDirection.dirOut⟩ (Except.ok 0) =
      Except.error UsbError.invalidEndpoint ∧
    (bus_set_stalled ⟨3, 5⟩ ⟨7, UsbDirection.dirIn⟩ true = ⟨3, 5⟩ ∧
      bus_is_stalled ⟨3, 5⟩ ⟨7, UsbDirection.dirIn⟩ = true) ∧
    (bus_set_stalled ⟨3, 5⟩ ⟨2, UsbDirection.dirIn⟩ true =
        endpoint_set_stalled ⟨3, 5⟩ ⟨2, UsbDirection.dirIn⟩ true ∧
      bus_is_stalled ⟨3, 5⟩ ⟨2, UsbDirection.dirIn⟩ =
        endpoint_is_stalled ⟨3, 5⟩ ⟨2, UsbDirection.dirIn⟩) :=
  ⟨claim_C8_invalid_dispatch.1 (EndpointAllocator.new 320) ⟨1, UsbDirection.dirIn⟩ 8
      (Except.ok 8) (Or.inr (Or.inr rfl)),
   claim_C8_invalid_dispatch.2.1 (EndpointAllocator.new 320) ⟨5, UsbDirection.dirOut⟩
      (Except.ok 0) (Or.inr (Or.inl (by norm_num))),
   claim_C8_invalid_dispatch.2.2.1 ⟨3, 5⟩ ⟨7, UsbDirection.dirIn⟩ true (by norm_num),
   claim_C8_invalid_dispatch.2.2.2 ⟨3, 5⟩ ⟨2, UsbDirection.dirIn⟩ true (by norm_num)⟩

/-- **C9**: whenever the endpoint-layer write succeeds — whatever count `c`
it reports — `UsbBus::write` returns the caller's buffer length. -/
theorem claim_C9_write_len (a : EndpointAllocator) (addr : EndpointAddress)
    (bufLen c : Nat) (ep : EndpointIn)
    (hdir : addr.is_in = true) (hidx : addr.index < 4)
    (hslot : a.endpoints_in.getD addr.index none = some ep) :
    bus_write a addr bufLen (Except.ok c) = Except.ok bufLen := by
  unfold bus_write
  rw [if_neg, hslot]
  · rfl
  · simp [hdir, Nat.not_le_of_lt hidx]

/-- An allocator holding a bulk IN endpoint at number 1. -/
def aWithIn1 : EndpointAllocator :=
  { EndpointAllocator.new 320 with
      bitmap_in := 2
      endpoints_in := [none, some epInOne, none, none] }

/-- **C9** witness: an endpoint-layer write reporting count 3 still makes
`write` return the 64-byte caller length. -/
theorem claim_C9_witness :
    bus_write aWithIn1 ⟨1, UsbDirection.dirIn⟩ 64 (Except.ok 3) = Except.ok 64 :=
  claim_C9_write_len aWithIn1 ⟨1, UsbDirection.dirIn⟩ 64 3 epInOne rfl (by norm_num) rfl

end SynopsysUsbOtg
